import Mathlib

/-!
Shallow embedding of the Commonry flashcard interchange engine.

Sources embedded (TypeScript):
  * src/lib/srs-engine.ts        — `SRSEngine.calculateNextReview` (SM-2 variant)
  * src/lib/anki-import.ts       — `renderTemplate`, `processHtml`,
                                   `processNoteWithModel`, `extractDeckInfo`,
                                   `importAnkiDeck`
  * src/lib/anki-export.ts       — `exportAnkiDeck`, `insertBasicModel`,
                                   `insertNote`, `insertCard`
  * src/services/import-mapping-service.ts — `getOrCreateMapping`,
                                   `rollbackImportBatch`, batch bookkeeping
  * src/storage/database.ts      — Dexie tables modelled as keyed lists
                                   (`add` rejects a duplicate primary key,
                                   `update` merges fields, `delete` by key)

Modelling conventions:
  * JS numbers on the scheduling path are modelled as `ℚ` (ease factor) and
    `ℤ` (interval); `Math.round` is `⌊x + 1/2⌋` (round half up), `Math.max`
    is `max`.
  * `Date` fields (due dates, timestamps) are omitted: no claim below
    mentions them, and they never influence control flow in the embedded
    functions.  `Date.now()` values that end up inside generated identifiers
    are modelled by a monotone clock counter in the world state.
  * `ulid()`-based identifier generation is modelled by a fresh counter; the
    only property the code relies on is freshness.
  * The browser DOM call used to strip markup (`tempDiv.textContent`) is
    modelled as removal of `<...>` tag spans (no entity decoding).
  * JS strings are Lean `String`s, scanned as `List Char`.
-/

namespace Commonry

deriving instance DecidableEq for Except

/-! ## Scheduling engine (src/lib/srs-engine.ts) -/

/-- `Card.status` lifecycle states. -/
inductive CardStatus
  | fresh       -- "new"
  | learning
  | review
  | relearning
deriving DecidableEq, Repr

/-- The scheduling-relevant fields of a `Card`
(front/back/media/`Date` fields omitted — see header). -/
structure SrsCard where
  interval : ℤ
  easeFactor : ℚ
  repetitions : ℕ
  lapses : ℕ
  totalReviews : ℕ
  status : CardStatus
deriving DecidableEq, Repr

/-- JS `Math.round`: rounds half toward `+∞`. -/
def jsRound (q : ℚ) : ℤ := ⌊q + 1/2⌋

/-- `SRSEngine.MIN_EASE`. -/
def MIN_EASE : ℚ := 13/10

/-- `SRSEngine.EASY_BONUS`. -/
def EASY_BONUS : ℚ := 13/10

/-- `SRSEngine.INTERVAL_MODIFIER`. -/
def INTERVAL_MODIFIER : ℚ := 1

/-- The `[0, -0.15, 0, 0.15][rating - 1]` lookup (only evaluated for
ratings 1–4 in the source). -/
def easeAdjustment (rating : ℕ) : ℚ :=
  ([0, -(3/20), 0, 3/20] : List ℚ).getD (rating - 1) 0

/-- `SRSEngine.calculateNextReview`, scheduling fields only.
Mirrors the branch structure of the source line by line. -/
def calculateNextReview (card : SrsCard) (rating : ℕ) : SrsCard :=
  -- updatedCard.totalReviews++
  let c0 : SrsCard := { card with totalReviews := card.totalReviews + 1 }
  if rating = 1 then
    -- Again: lapse, reset repetitions, interval 1, relearning, ease - 0.2
    { c0 with
      lapses := c0.lapses + 1
      repetitions := 0
      interval := 1
      status := CardStatus.relearning
      easeFactor := max MIN_EASE (c0.easeFactor - 1/5) }
  else
    let c1 : SrsCard :=
      if c0.status = CardStatus.fresh ∨ c0.status = CardStatus.learning then
        if rating ≥ 3 then
          { c0 with
            status := CardStatus.review
            interval := if rating = 4 then 4 else 1 }
        else
          { c0 with interval := 1 }
      else
        -- review phase
        let c2 : SrsCard :=
          if c0.repetitions = 0 then { c0 with interval := 1 }
          else if c0.repetitions = 1 then { c0 with interval := 6 }
          else
            let newInterval : ℚ :=
              (c0.interval : ℚ) * c0.easeFactor *
                (if rating = 2 then 4/5 else if rating = 4 then EASY_BONUS else 1)
            { c0 with interval := jsRound (newInterval * INTERVAL_MODIFIER) }
        { c2 with repetitions := c2.repetitions + 1 }
    { c1 with easeFactor := max MIN_EASE (c1.easeFactor + easeAdjustment rating) }

/-- The review-status card of the spec's scheduler example:
`interval=10, easeFactor=2.0, repetitions=3`. -/
def reviewCard10 : SrsCard :=
  { interval := 10, easeFactor := 2, repetitions := 3, lapses := 0
    totalReviews := 0, status := CardStatus.review }

/-- Rating modifier applied in the review branch: 0.8 for Hard (2),
1.3 for Easy (4), 1.0 for Good (3). -/
def ratingModifier (r : ℕ) : ℚ :=
  if r = 2 then 4/5 else if r = 4 then EASY_BONUS else 1

/-- A review-status card whose ease factor already sits at 2.5
(the engine's initial value). -/
def maxEaseCard : SrsCard :=
  { interval := 10, easeFactor := 5/2, repetitions := 3, lapses := 0
    totalReviews := 0, status := CardStatus.review }

/-- Claim C5: for a card in "review" status and a remembered rating (2–4),
the next interval is 1 when repetitions is 0, 6 when repetitions is 1, and
otherwise `round(interval × easeFactor × m)` with `m = 0.8` for Hard, `1.0`
for Good and `1.3` for Easy; repetitions increments by one.  In particular,
for `interval=10, easeFactor=2.0, repetitions=3`: Good yields interval 20,
Easy yields a strictly larger interval than Good, and Again yields
interval 1 with repetitions 0. -/
theorem scheduler_review_branch (c : SrsCard) (r : ℕ)
    (hst : c.status = CardStatus.review) (hr : r = 2 ∨ r = 3 ∨ r = 4) :
    ((calculateNextReview c r).interval =
        (if c.repetitions = 0 then 1
         else if c.repetitions = 1 then 6
         else jsRound ((c.interval : ℚ) * c.easeFactor * ratingModifier r)) ∧
      (calculateNextReview c r).repetitions = c.repetitions + 1) ∧
    (calculateNextReview reviewCard10 3).interval = 20 ∧
    (calculateNextReview reviewCard10 3).interval <
      (calculateNextReview reviewCard10 4).interval ∧
    (calculateNextReview reviewCard10 1).interval = 1 ∧
    (calculateNextReview reviewCard10 1).repetitions = 0 := by
  refine ⟨?_, ?_, ?_, ?_, ?_⟩
  · rcases hr with rfl | rfl | rfl <;>
      simp [calculateNextReview, hst, ratingModifier, INTERVAL_MODIFIER,
        apply_ite (SrsCard.interval), apply_ite (SrsCard.repetitions)]
  · simp [calculateNextReview, reviewCard10, EASY_BONUS, INTERVAL_MODIFIER, MIN_EASE,
      easeAdjustment]; norm_num [jsRound]
  · have h3 : (calculateNextReview reviewCard10 3).interval = 20 := by
      simp [calculateNextReview, reviewCard10, EASY_BONUS, INTERVAL_MODIFIER, MIN_EASE,
        easeAdjustment]; norm_num [jsRound]
    have h4 : (calculateNextReview reviewCard10 4).interval = 26 := by
      simp [calculateNextReview, reviewCard10, EASY_BONUS, INTERVAL_MODIFIER, MIN_EASE,
        easeAdjustment]; norm_num [jsRound]
    rw [h3, h4]; norm_num
  · simp [calculateNextReview, reviewCard10, EASY_BONUS, INTERVAL_MODIFIER, MIN_EASE,
      easeAdjustment]
  · simp [calculateNextReview, reviewCard10, EASY_BONUS, INTERVAL_MODIFIER, MIN_EASE,
      easeAdjustment]

/-- Witness for C5: the theorem applied to the spec's concrete example card
with rating Good. -/
theorem scheduler_review_branch_witness :
    (calculateNextReview reviewCard10 3).repetitions = reviewCard10.repetitions + 1 :=
  (scheduler_review_branch reviewCard10 3 rfl (by norm_num)).1.2

/-- Counterexample to claim C6: the engine never clamps the ease factor
from above.  A review-status card with ease factor 2.5 rated Easy ends with
ease factor 2.65 > 2.5, so the ease factor is not "always clamped to
[1.3, 2.5]" and can exceed 2.5 after a review. -/
theorem ease_factor_exceeds_upper_bound :
    (calculateNextReview maxEaseCard 4).easeFactor = 53/20 ∧
      (5/2 : ℚ) < (calculateNextReview maxEaseCard 4).easeFactor := by
  have h : (calculateNextReview maxEaseCard 4).easeFactor = 53/20 := by
    simp [calculateNextReview, maxEaseCard, EASY_BONUS, INTERVAL_MODIFIER, MIN_EASE,
      easeAdjustment]; norm_num
  exact ⟨h, by rw [h]; norm_num⟩

/-- Claim C6 (amended): for every card and every rating 1–4, the new ease
factor is the old one plus the fixed per-rating delta (−0.2 Again, −0.15
Hard, 0 Good, +0.15 Easy), clamped from below at 1.3 only; there is no
upper clamp at 2.5. -/
theorem ease_factor_update (c : SrsCard) (r : ℕ)
    (hr : r = 1 ∨ r = 2 ∨ r = 3 ∨ r = 4) :
    (calculateNextReview c r).easeFactor =
      max MIN_EASE (c.easeFactor +
        (if r = 1 then -(1/5) else if r = 2 then -(3/20)
         else if r = 4 then 3/20 else 0)) := by
  rcases hr with rfl | rfl | rfl | rfl <;>
    simp [calculateNextReview, easeAdjustment, MIN_EASE, sub_eq_add_neg,
      apply_ite (SrsCard.easeFactor)]

/-- Witness for C6 (amended): the amended theorem applied to the example
card with rating Easy. -/
theorem ease_factor_update_witness :
    (calculateNextReview maxEaseCard 4).easeFactor =
      max MIN_EASE (maxEaseCard.easeFactor + 3/20) := by
  have h := ease_factor_update maxEaseCard 4 (by norm_num)
  simpa using h

/-! ## Template renderer (`renderTemplate` in src/lib/anki-import.ts)

The three JS regex-replace passes are embedded as left-to-right scanners
over `List Char`.  As in `String.prototype.replace` with a global regex,
replacement text is emitted verbatim and never rescanned by the same pass.
Each scanner consumes at least one character per step, so the input length
is enough fuel. -/

/-- JS regex `\w`: ASCII letters, digits, underscore. -/
def isWordChar (c : Char) : Bool := c.isAlphanum || c = '_'

/-- A JS `Record<string, string>` field map; the source always reads it as
`fieldMap[name] || ""`, so it is modelled as a total function whose value
for absent keys is `""`. -/
def FieldMap := String → String

/-- Try to match the opening tag `{{<marker><name>}}` (with `name` matching
`\w+`) at the start of the input; on success return the name and the
characters after the tag. -/
def matchSectionOpen (marker : Char) (l : List Char) : Option (List Char × List Char) :=
  match l with
  | '\x7b' :: '\x7b' :: m :: rest1 =>
    if m = marker then
      let name := rest1.takeWhile isWordChar
      match name, rest1.dropWhile isWordChar with
      | _ :: _, '\x7d' :: '\x7d' :: rest3 => some (name, rest3)
      | _, _ => none
    else none
  | _ => none

/-- The closing tag `{{/name}}` for a section named `name`. -/
def closeTag (name : List Char) : List Char :=
  '\x7b' :: '\x7b' :: '/' :: name ++ ['\x7d', '\x7d']

/-- Find the first occurrence of `close` (the section body `[\s\S]*?` is
non-greedy); return the content before it and the remainder after it. -/
def findClose (close : List Char) : List Char → Option (List Char × List Char)
  | [] => none
  | c :: cs =>
    if close.isPrefixOf (c :: cs) then some ([], (c :: cs).drop close.length)
    else
      match findClose close cs with
      | some (content, rest) => some (c :: content, rest)
      | none => none

/-- One section-replacement pass (`{{#F}}…{{/F}}` or `{{^F}}…{{/F}}`):
at each position, if a full section matches, emit its content when
`keepVal` holds of the field's value (else nothing) and continue after the
section; otherwise emit one character and move on. -/
def sectionPassF (marker : Char) (keepVal : String → Bool) (fm : FieldMap) :
    ℕ → List Char → List Char
  | 0, l => l
  | _ + 1, [] => []
  | fuel + 1, c :: cs =>
    match matchSectionOpen marker (c :: cs) with
    | some (name, afterOpen) =>
      match findClose (closeTag name) afterOpen with
      | some (content, rest) =>
        (if keepVal (fm (String.mk name)) then content else []) ++
          sectionPassF marker keepVal fm fuel rest
      | none => c :: sectionPassF marker keepVal fm fuel cs
    | none => c :: sectionPassF marker keepVal fm fuel cs

/-- Try to match a plain substitution token `{{<name>}}` at the start. -/
def matchVar (l : List Char) : Option (List Char × List Char) :=
  match l with
  | '\x7b' :: '\x7b' :: rest1 =>
    let name := rest1.takeWhile isWordChar
    match name, rest1.dropWhile isWordChar with
    | _ :: _, '\x7d' :: '\x7d' :: rest3 => some (name, rest3)
    | _, _ => none
  | _ => none

/-- The field-substitution pass: every remaining `{{F}}` becomes
`fieldMap[F] || ""`. -/
def substPassF (fm : FieldMap) : ℕ → List Char → List Char
  | 0, l => l
  | _ + 1, [] => []
  | fuel + 1, c :: cs =>
    match matchVar (c :: cs) with
    | some (name, rest) => (fm (String.mk name)).data ++ substPassF fm fuel rest
    | none => c :: substPassF fm fuel cs

/-- JS `String.prototype.trim`: strip whitespace from both ends. -/
def jsTrim (l : List Char) : List Char :=
  ((l.dropWhile Char.isWhitespace).reverse.dropWhile Char.isWhitespace).reverse

/-- JS truthiness of `v.trim()`: the trimmed string is non-empty. -/
def trimTruthy (v : String) : Bool := !(jsTrim v.data).isEmpty

/-- Pass 1: conditional sections are kept iff the field's trimmed value is
non-empty (JS string truthiness of `fieldValue.trim()`). -/
def conditionalPass (fm : FieldMap) (l : List Char) : List Char :=
  sectionPassF '#' (fun v => trimTruthy v) fm l.length l

/-- Pass 2: inverted sections are kept iff the field's trimmed value is
empty. -/
def invertedPass (fm : FieldMap) (l : List Char) : List Char :=
  sectionPassF '^' (fun v => !trimTruthy v) fm l.length l

/-- Pass 3: plain substitution. -/
def substPass (fm : FieldMap) (l : List Char) : List Char :=
  substPassF fm l.length l

/-- `renderTemplate`: conditional sections, then inverted sections, then
field substitution — exactly the order of the source. -/
def renderTemplate (template : String) (fm : FieldMap) : String :=
  String.mk (substPass fm (invertedPass fm (conditionalPass fm template.data)))

/-- The caller-side `{ ...fieldMap, FrontSide: renderedFront }` map used
when rendering the back template. -/
def withFrontSide (fm : FieldMap) (renderedFront : String) : FieldMap :=
  fun n => if n = "FrontSide" then renderedFront else fm n

/-! ## Content normalizer (`processHtml` in src/lib/anki-import.ts) -/

/-- The literal `[sound:` opening an audio token. -/
def soundOpen : List Char := ['[', 's', 'o', 'u', 'n', 'd', ':']

/-- Try to match `[sound:<name>]` (regex `\[sound:([^\]]+)\]`) at the
start; return the captured name (non-empty, no `]`) and the rest after the
closing bracket. -/
def matchSound (l : List Char) : Option (List Char × List Char) :=
  if soundOpen.isPrefixOf l then
    let rest := l.drop soundOpen.length
    let name := rest.takeWhile (fun c => c ≠ ']')
    match name, rest.dropWhile (fun c => c ≠ ']') with
    | _ :: _, _ :: rest2 => some (name, rest2)
    | _, _ => none
  else none

/-- Capture extraction of `html.match(/\[sound:([^\]]+)\]/g)`. -/
def extractSoundsF : ℕ → List Char → List (List Char)
  | 0, _ => []
  | _ + 1, [] => []
  | fuel + 1, c :: cs =>
    match matchSound (c :: cs) with
    | some (name, rest) => name :: extractSoundsF fuel rest
    | none => extractSoundsF fuel cs

/-- `html.replace(/\[sound:([^\]]+)\]/g, "")`. -/
def removeSoundsF : ℕ → List Char → List Char
  | 0, l => l
  | _ + 1, [] => []
  | fuel + 1, c :: cs =>
    match matchSound (c :: cs) with
    | some (_, rest) => removeSoundsF fuel rest
    | none => c :: removeSoundsF fuel cs

/-- Case-insensitive character comparison (JS regex `i` flag). -/
def ciEq (a b : Char) : Bool := a.toLower = b.toLower

/-- Case-insensitive prefix test. -/
def ciIsPrefixOf : List Char → List Char → Bool
  | [], _ => true
  | _ :: _, [] => false
  | p :: ps, q :: qs => ciEq p q && ciIsPrefixOf ps qs

/-- The tag opener `<img`. -/
def imgOpen : List Char := ['<', 'i', 'm', 'g']

/-- The attribute opener `src=`. -/
def srcEq : List Char := ['s', 'r', 'c', '=']

/-- Try to match an `<img …>` span (regex `/<img[^>]*>/i`) at the start;
return the tag body (the non-`>` run after `<img`) and the rest after the
closing `>`. -/
def matchImgTag (l : List Char) : Option (List Char × List Char) :=
  if ciIsPrefixOf imgOpen l then
    let rest := l.drop imgOpen.length
    let body := rest.takeWhile (fun c => c ≠ '>')
    match rest.dropWhile (fun c => c ≠ '>') with
    | _ :: rest2 => some (body, rest2)
    | [] => none
  else none

/-- `html.replace(/<img[^>]*>/gi, "")`. -/
def removeImgsF : ℕ → List Char → List Char
  | 0, l => l
  | _ + 1, [] => []
  | fuel + 1, c :: cs =>
    match matchImgTag (c :: cs) with
    | some (_, rest) => removeImgsF fuel rest
    | none => c :: removeImgsF fuel cs

/-- First `src=` attribute value (regex `/src=["']?([^"'>]+)["']?/i`):
scan for a case-insensitive `src=`, skip one optional quote, capture a
non-empty run of characters outside `"'>`; an empty capture makes the
scan continue at later positions. -/
def findSrcValue : ℕ → List Char → Option (List Char)
  | 0, _ => none
  | _ + 1, [] => none
  | fuel + 1, c :: cs =>
    if ciIsPrefixOf srcEq (c :: cs) then
      let after := (c :: cs).drop srcEq.length
      let afterQuote :=
        match after with
        | '"' :: r => r
        | '\'' :: r => r
        | _ => after
      let v := afterQuote.takeWhile (fun ch => ch ≠ '"' && ch ≠ '\'' && ch ≠ '>')
      if v.isEmpty then findSrcValue fuel cs else some v
    else findSrcValue fuel cs

/-- Capture extraction of
`html.match(/<img[^>]+src=["']?([^"'>]+)["']?[^>]*>/gi)` followed by the
source's per-match `src=` re-extraction.  The outer regex needs at least
one character between `<img` and a usable `src=` (`[^>]+`), hence the
eligibility test on the tag body's tail; the captured value is the first
usable `src=` value inside the matched tag. -/
def extractImgsF : ℕ → List Char → List (List Char)
  | 0, _ => []
  | _ + 1, [] => []
  | fuel + 1, c :: cs =>
    match matchImgTag (c :: cs) with
    | some (body, rest) =>
      match body with
      | _ :: bodyTail =>
        if (findSrcValue bodyTail.length bodyTail).isSome then
          match findSrcValue body.length body with
          | some v => v :: extractImgsF fuel rest
          | none => extractImgsF fuel cs
        else extractImgsF fuel cs
      | [] => extractImgsF fuel cs
    | none => extractImgsF fuel cs

/-- The DOM `textContent` of parsed markup, modelled as dropping tag
spans: a `<` followed by a letter, `/` or `!` opens a tag, dropped through
the next `>` (or to the end if unterminated); any other character is text.
Entity decoding is not modelled (see the file header). -/
def stripTagsF : ℕ → List Char → List Char
  | 0, l => l
  | _ + 1, [] => []
  | fuel + 1, c :: cs =>
    if c = '<' then
      if (match cs with
          | d :: _ => d.isAlpha || d = '/' || d = '!'
          | [] => false) then
        match cs.dropWhile (fun x => x ≠ '>') with
        | _ :: rest => stripTagsF fuel rest
        | [] => []
      else c :: stripTagsF fuel cs
    else c :: stripTagsF fuel cs

/-- `cleaned.replace(/\s+/g, " ")`: every maximal whitespace run becomes a
single space (a whitespace character is skipped while its successor is
also whitespace). -/
def collapseWs : List Char → List Char
  | [] => []
  | c :: cs =>
    if c.isWhitespace then
      match cs with
      | d :: _ => if d.isWhitespace then collapseWs cs else ' ' :: collapseWs cs
      | [] => [' ']
    else c :: collapseWs cs

/-- Result record of `processHtml`. -/
structure ProcessedHtml where
  text : String
  audio : List String
  images : List String
deriving DecidableEq, Repr

/-- `processHtml`: extract audio and image references, strip the audio
tokens and image tags, strip remaining markup, collapse whitespace and
trim. -/
def processHtml (html : String) : ProcessedHtml :=
  let l := html.data
  let audioFiles := (extractSoundsF l.length l).map String.mk
  let imageFiles := (extractImgsF l.length l).map String.mk
  let cleaned1 := removeSoundsF l.length l
  let cleaned2 := removeImgsF cleaned1.length cleaned1
  let cleaned3 := stripTagsF cleaned2.length cleaned2
  { text := String.mk (jsTrim (collapseWs cleaned3))
    audio := audioFiles
    images := imageFiles }

/-! ## Note processing (`processNoteWithModel` in src/lib/anki-import.ts) -/

/-- The parts of an Anki field definition the importer reads
(only `name` is consulted; `ord`, fonts etc. are never used). -/
structure AnkiField where
  name : String
deriving DecidableEq, Repr

/-- An Anki card template: question and answer format strings
(`name`, `bqfmt` etc. are only logged by the source). -/
structure AnkiTemplate where
  qfmt : String
  afmt : String
deriving DecidableEq, Repr

/-- An Anki model (note type): ordered field list and template list. -/
structure AnkiModel where
  flds : List AnkiField
  tmpls : List AnkiTemplate
deriving DecidableEq, Repr

/-- `CardDirection`. -/
inductive CardDirection
  | all
  | forward
  | reverse
deriving DecidableEq, Repr

/-- `modelFields.forEach((field, index) => fieldMap[field.name] =
fieldValues[index] || "")`: later duplicate names overwrite earlier
ones. -/
def buildFieldMap (flds : List AnkiField) (values : List String) : FieldMap :=
  flds.enum.foldl
    (fun fm p => fun n => if n = p.2.name then values.getD p.1 "" else fm n)
    (fun _ => "")

/-- `templates.filter((template, index) => …)` with the user's card
direction choice. -/
def filterTemplates (dir : CardDirection) (tmpls : List AnkiTemplate) : List AnkiTemplate :=
  (tmpls.enum.filter (fun p =>
    match dir with
    | CardDirection.all => true
    | CardDirection.forward => p.1 = 0
    | CardDirection.reverse => p.1 = 1)).map Prod.snd

/-- The empty-card test of the note loop:
`!frontData.text.trim() && !frontData.images.length && !backData.text.trim()`
(back-side images are not consulted). -/
def skipEmptyCard (frontData backData : ProcessedHtml) : Bool :=
  !trimTruthy frontData.text && frontData.images.isEmpty && !trimTruthy backData.text

/-- Render one template for a note: front from `qfmt`, back from `afmt`
with the `FrontSide` pseudo-field bound to the rendered front, both put
through `processHtml`. -/
def renderCandidate (fieldMap : FieldMap) (tmpl : AnkiTemplate) :
    ProcessedHtml × ProcessedHtml :=
  let renderedFront := renderTemplate tmpl.qfmt fieldMap
  let renderedBack := renderTemplate tmpl.afmt (withFrontSide fieldMap renderedFront)
  (processHtml renderedFront, processHtml renderedBack)

/-- The card data stored for one kept candidate (identifier assignment and
persistence happen in the world-level import below). -/
structure CardSpec where
  externalId : String
  front : String
  back : String
  frontAudio : Option String
  backAudio : Option String
  frontImage : Option String
  backImage : Option String
deriving DecidableEq, Repr

/-- The body of the template loop in `processNoteWithModel`: skip the
candidate when the empty-card test fires, otherwise build the card data
(`frontData.text || "(image only)"` etc.). -/
def processTemplate (noteId : String) (fieldMap : FieldMap) (templateIndex : ℕ)
    (tmpl : AnkiTemplate) : Option CardSpec :=
  let fd := renderCandidate fieldMap tmpl
  let frontData := fd.1
  let backData := fd.2
  if skipEmptyCard frontData backData then none
  else
    some
      { externalId := noteId ++ "_" ++ toString templateIndex
        front := if frontData.text.isEmpty then "(image only)" else frontData.text
        back :=
          if backData.text.isEmpty then
            (if frontData.text.isEmpty then "(image only)" else frontData.text)
          else backData.text
        frontAudio := frontData.audio.head?
        backAudio := backData.audio.head?
        frontImage := frontData.images.head?
        backImage := backData.images.head? }

/-- `processNoteWithModel`, card-content level: field map from the model's
fields, direction-filtered templates, one optional card per template. -/
def processNoteWithModel (noteId : String) (fieldValues : List String)
    (model : AnkiModel) (dir : CardDirection) : List CardSpec :=
  let fieldMap := buildFieldMap model.flds fieldValues
  (filterTemplates dir model.tmpls).enum.filterMap
    (fun p => processTemplate noteId fieldMap p.1 p.2)

/-- The spec's example template `{{#Front}}Q:{{Front}}{{/Front}}`. -/
def exampleCondTemplate : String :=
  "\x7b\x7b#Front\x7d\x7dQ:\x7b\x7bFront\x7d\x7d\x7b\x7b/Front\x7d\x7d"

/-- A field map with `Front = "2+2"` and every other field empty. -/
def exampleMapFront : FieldMap := fun n => if n = "Front" then "2+2" else ""

/-- A field map with every field empty. -/
def exampleMapEmpty : FieldMap := fun _ => ""

/-- Claim C7: `renderTemplate` applies, in order, conditional sections
(kept iff the field's trimmed value is non-empty), inverted sections (kept
iff the field's trimmed value is empty), then plain `{{Field}}`
substitution; the caller-injected `FrontSide` pseudo-field resolves to the
already-rendered front; rendering `{{#Front}}Q:{{Front}}{{/Front}}` with
empty `Front` yields `""` and with `Front = "2+2"` yields `"Q:2+2"`. -/
theorem renderTemplate_contract :
    (∀ (t : String) (fm : FieldMap),
        renderTemplate t fm =
          String.mk (substPass fm (invertedPass fm (conditionalPass fm t.data)))) ∧
    renderTemplate exampleCondTemplate exampleMapEmpty = "" ∧
    renderTemplate exampleCondTemplate exampleMapFront = "Q:2+2" ∧
    (∀ (fm : FieldMap) (qfmt : String),
        renderTemplate "\x7b\x7bFrontSide\x7d\x7d"
            (withFrontSide fm (renderTemplate qfmt fm)) =
          renderTemplate qfmt fm) := by
  refine ⟨fun t fm => rfl, by decide, by decide, fun fm qfmt => ?_⟩
  show String.mk ((renderTemplate qfmt fm).data ++ []) = renderTemplate qfmt fm
  simp

/-- A model whose single template renders an empty front and an image-only
back: `qfmt = {{Front}}`, `afmt = <img src="pic.png">`. -/
def imgOnlyModel : AnkiModel :=
  { flds := [{ name := "Front" }, { name := "Back" }]
    tmpls := [{ qfmt := "\x7b\x7bFront\x7d\x7d", afmt := "<img src=\"pic.png\">" }] }

/-- Counterexample to claim C8: a candidate card whose back side carries an
image reference (while both plain texts are empty and the front has no
image) is nevertheless skipped — the empty-card test never consults
back-side images, so "a candidate card with … an image reference is not
skipped" fails. -/
theorem empty_card_back_image_skipped :
    processNoteWithModel "1" ["", ""] imgOnlyModel CardDirection.all = [] ∧
      (renderCandidate (buildFieldMap imgOnlyModel.flds ["", ""])
            { qfmt := "\x7b\x7bFront\x7d\x7d", afmt := "<img src=\"pic.png\">" }).2.images =
        ["pic.png"] := by
  exact ⟨by decide, by decide⟩

/-- Claim C8 (amended): a candidate card is skipped iff its rendered front
plain text is (trimmed) empty, its front side carries no image reference
and its rendered back plain text is (trimmed) empty — back-side images are
not consulted; conversely a candidate with non-empty front or back text or
with a front image reference yields a stored card.  The second conjunct
ties the note loop to the per-template decision. -/
theorem empty_card_suppression :
    (∀ (noteId : String) (fieldMap : FieldMap) (idx : ℕ) (tmpl : AnkiTemplate),
        processTemplate noteId fieldMap idx tmpl = none ↔
          (trimTruthy (renderCandidate fieldMap tmpl).1.text = false ∧
            (renderCandidate fieldMap tmpl).1.images = [] ∧
            trimTruthy (renderCandidate fieldMap tmpl).2.text = false)) ∧
    (∀ (noteId : String) (values : List String) (model : AnkiModel)
        (dir : CardDirection) (spec : CardSpec),
        spec ∈ processNoteWithModel noteId values model dir ↔
          ∃ p ∈ (filterTemplates dir model.tmpls).enum,
            processTemplate noteId (buildFieldMap model.flds values) p.1 p.2 =
              some spec) := by
  constructor
  · intro noteId fieldMap idx tmpl
    have hnone : processTemplate noteId fieldMap idx tmpl = none ↔
        skipEmptyCard (renderCandidate fieldMap tmpl).1
          (renderCandidate fieldMap tmpl).2 = true := by
      simp only [processTemplate]
      split <;> rename_i h <;> simp [h]
    rw [hnone, skipEmptyCard]
    simp [Bool.and_eq_true, Bool.not_eq_true', List.isEmpty_iff, and_assoc]
  · intro noteId values model dir spec
    simp [processNoteWithModel, List.mem_filterMap]

/-! ## Persistent store (src/storage/database.ts, Dexie tables as keyed
lists; iteration order is insertion order) -/

/-- A stored card (`Card` in src/lib/srs-engine.ts); `Date` fields are
omitted per the file header. -/
structure StoredCard where
  id : String
  front : String
  back : String
  deckId : String
  interval : ℤ
  easeFactor : ℚ
  repetitions : ℕ
  lapses : ℕ
  totalReviews : ℕ
  status : CardStatus
  queue : ℕ
  frontAudio : Option String := none
  backAudio : Option String := none
  frontImage : Option String := none
  backImage : Option String := none
  importSource : Option String := none
  externalId : Option String := none
deriving DecidableEq, Repr

/-- A stored deck (`Deck` in src/lib/srs-engine.ts). -/
structure Deck where
  id : String
  name : String
  description : Option String := none
  cardCount : ℕ
  dueCount : ℕ
  newCount : ℕ
  importSource : Option String := none
  externalId : Option String := none
deriving DecidableEq, Repr

/-- `EntityType` of the mapping service. -/
inductive EntityType
  | card
  | deck
  | note
  | media
deriving DecidableEq, Repr

/-- An `ImportMapping` row (auto-increment surrogate key and `Date`
timestamps omitted; the timestamp-refresh update in `getOrCreateMapping`
touches only those omitted fields). -/
structure ImportMapping where
  sourceSystem : String
  sourceId : String
  internalId : String
  entityType : EntityType
  importBatchId : Option String
deriving DecidableEq, Repr

/-- `ImportBatch.status` values. -/
inductive BatchStatus
  | in_progress
  | completed
  | failed
  | rolled_back
deriving DecidableEq, Repr

/-- An `ImportBatch` row (free-form `metadata` and `Date` fields omitted:
they are written but never read by any embedded operation). -/
structure ImportBatch where
  id : String
  sourceSystem : String
  fileName : Option String
  status : BatchStatus
  notesImported : ℕ
  cardsImported : ℕ
  decksImported : ℕ
deriving DecidableEq, Repr

/-- The whole persistent state plus the two generators: the `ulid()`
counter (identifier freshness) and the `Date.now()` clock. -/
structure World where
  cards : List StoredCard
  decks : List Deck
  importMappings : List ImportMapping
  importBatches : List ImportBatch
  nextUlid : ℕ
  clock : ℕ
deriving DecidableEq, Repr

/-- The empty store. -/
def World.empty : World :=
  { cards := [], decks := [], importMappings := [], importBatches := []
    nextUlid := 0, clock := 0 }

/-- Dexie `Table.add`: rejects with `ConstraintError` when the primary key
already exists, else appends. -/
def addByKey {α : Type} (key : α → String) (rows : List α) (row : α) :
    Except String (List α) :=
  if rows.any (fun r => key r == key row) then Except.error "ConstraintError"
  else Except.ok (rows ++ [row])

/-- Dexie `Table.update`: apply `f` to the row with key `k` (no-op when
absent). -/
def updateByKey {α : Type} (key : α → String) (rows : List α) (k : String)
    (f : α → α) : List α :=
  rows.map (fun r => if key r == k then f r else r)

/-- Dexie `Table.delete`: drop the row with key `k`. -/
def deleteByKey {α : Type} (key : α → String) (rows : List α) (k : String) : List α :=
  rows.filter (fun r => !(key r == k))

/-- The opaque unique string produced for counter value `n`.  A real
`ulid()` is an opaque unique 26-character string; the model encodes the
counter in unary so that distinctness of distinct counters is a one-line
fact. -/
def ulidStr (n : ℕ) : String := String.mk (List.replicate n 'u')

/-- `ulid()`: a fresh identifier from the counter. -/
def mintUlid (w : World) : String × World :=
  (ulidStr w.nextUlid, { w with nextUlid := w.nextUlid + 1 })

/-- `IdService.generate`: `<prefix>_<ulid>` (the exact `ENTITY_PREFIXES`
table lives outside src/; only freshness and the `_` separator are relied
on by the embedded code). -/
def generateId (pfx : String) (w : World) : String × World :=
  let r := mintUlid w
  (pfx ++ "_" ++ r.1, r.2)

/-- `Date.now()`: read the clock and advance it (real time is monotone;
distinct reads may coincide in JS, but nothing below depends on that). -/
def jsNow (w : World) : ℕ × World :=
  (w.clock, { w with clock := w.clock + 1 })

/-! ## Identifier mapping service (src/services/import-mapping-service.ts) -/

/-- The compound-index equality test
`[sourceSystem+sourceId+entityType] equals [src, sid, et]`. -/
def matchesTriple (src sid : String) (et : EntityType) (m : ImportMapping) : Bool :=
  m.sourceSystem == src && m.sourceId == sid && m.entityType == et

/-- The per-entity-type id generator chosen by the `switch (entityType)`
(`generateCardId` / `generateDeckId` / `generateNoteId` /
`generateMediaId`; the `default: throw` arm is unreachable for the four
constructors). -/
def entityPrefix : EntityType → String
  | EntityType.card => "card"
  | EntityType.deck => "deck"
  | EntityType.note => "note"
  | EntityType.media => "media"

/-- `ImportMappingService.getOrCreateMapping`: look the triple up; if
found, return the existing internal id (the timestamp refresh touches only
omitted `Date` fields); else mint a typed id and append a new mapping
row (auto-increment key: the append cannot fail). -/
def getOrCreateMapping (src sid : String) (et : EntityType)
    (importBatchId : Option String) (w : World) : String × World :=
  match w.importMappings.find? (matchesTriple src sid et) with
  | some m => (m.internalId, w)
  | none =>
    let r := generateId (entityPrefix et) w
    (r.1, { r.2 with importMappings := r.2.importMappings ++
        [{ sourceSystem := src, sourceId := sid, internalId := r.1,
           entityType := et, importBatchId := importBatchId }] })

/-- `ImportMappingService.getExternalId` (reverse lookup, never mints). -/
def getExternalId (internalId src : String) (w : World) : Option String :=
  (w.importMappings.find? (fun m =>
      m.internalId == internalId && m.sourceSystem == src)).map (·.sourceId)

/-- `ImportMappingService.getMappingsByBatch`. -/
def getMappingsByBatch (batchId : String) (w : World) : List ImportMapping :=
  w.importMappings.filter (fun m => m.importBatchId == some batchId)

/-- `ImportMappingService.createImportBatch`: a fresh `batch_<ulid>` id,
status `in_progress`, zero counts. -/
def createImportBatch (src : String) (fileName : Option String) (w : World) :
    String × World :=
  let r := mintUlid w
  let bid := "batch_" ++ r.1
  (bid, { r.2 with importBatches := r.2.importBatches ++
      [{ id := bid, sourceSystem := src, fileName := fileName
         status := BatchStatus.in_progress
         notesImported := 0, cardsImported := 0, decksImported := 0 }] })

/-- `ImportMappingService.completeImportBatch`. -/
def completeImportBatch (batchId : String) (notes cards decks : ℕ) (w : World) : World :=
  { w with importBatches := (updateByKey ImportBatch.id w.importBatches batchId
      (fun b =>
        { b with
          status := BatchStatus.completed
          notesImported := notes
          cardsImported := cards
          decksImported := decks })) }

/-- `ImportMappingService.failImportBatch`. -/
def failImportBatch (batchId : String) (w : World) : World :=
  { w with importBatches := (updateByKey ImportBatch.id w.importBatches batchId
      (fun b => { b with status := BatchStatus.failed })) }

/-- `ImportMappingService.getDeckImportBatch`
(`mapping?.importBatchId || null`). -/
def getDeckImportBatch (src sourceDeckId : String) (w : World) : Option String :=
  match w.importMappings.find? (matchesTriple src sourceDeckId EntityType.deck) with
  | some m => m.importBatchId
  | none => none

/-- One step of the rollback deletion loop: delete the card or deck a
mapping points at. -/
def rollbackDeleteStep (acc : World) (m : ImportMapping) : World :=
  if m.entityType = EntityType.card then
    { acc with cards := deleteByKey StoredCard.id acc.cards m.internalId }
  else if m.entityType = EntityType.deck then
    { acc with decks := deleteByKey Deck.id acc.decks m.internalId }
  else acc

/-- `ImportMappingService.rollbackImportBatch`: inside one transaction
(modelled as this single state transformation), delete every card/deck a
batch mapping points at, delete the batch's mappings, and mark the batch
rolled back. -/
def rollbackImportBatch (batchId : String) (w : World) : World :=
  let mappings := getMappingsByBatch batchId w
  let w1 := mappings.foldl rollbackDeleteStep w
  let w2 := { w1 with importMappings :=
      w1.importMappings.filter (fun m => !(m.importBatchId == some batchId)) }
  { w2 with importBatches := (updateByKey ImportBatch.id w2.importBatches batchId
      (fun b => { b with status := BatchStatus.rolled_back })) }

/-! ## Database-level helpers (src/storage/database.ts) -/

/-- `SRSEngine.createCard`: a fresh card with the new-card scheduling
defaults (interval 0, ease 2.5, status "new"). -/
def srsCreateCard (front back deckId : String) (w : World) : StoredCard × World :=
  let r := generateId "card" w
  ({ id := r.1, front := front, back := back, deckId := deckId
     interval := 0, easeFactor := 5/2, repetitions := 0, lapses := 0
     totalReviews := 0, status := CardStatus.fresh, queue := 0 }, r.2)

/-- `SRSDatabase.createDeck`: mint a deck id and add the deck row. -/
def dbCreateDeck (name : String) (description : Option String) (w : World) :
    Except String (String × World) :=
  let r := generateId "deck" w
  match addByKey Deck.id r.2.decks
      { id := r.1, name := name, description := description
        cardCount := 0, dueCount := 0, newCount := 0 } with
  | Except.ok ds => Except.ok (r.1, { r.2 with decks := ds })
  | Except.error e => Except.error e

/-- `SRSDatabase.getDeck`. -/
def dbGetDeck (deckId : String) (w : World) : Option Deck :=
  w.decks.find? (fun d => d.id == deckId)

/-- `SRSDatabase.updateDeckStats`: recompute the deck's cached counts from
its cards.  (`dueCount` compares omitted `Date` fields: every card in this
model was created due-now, so it equals the card count; no claim reads
it.) -/
def updateDeckStats (deckId : String) (w : World) : World :=
  let cs := w.cards.filter (fun c => c.deckId == deckId)
  { w with decks := (updateByKey Deck.id w.decks deckId (fun d =>
      { d with cardCount := cs.length
               newCount := (cs.filter (fun c => c.status == CardStatus.fresh)).length
               dueCount := cs.length })) }

/-- Claim C2: calling `getOrCreateMapping` twice in sequence with the same
`(sourceSystem, sourceId, entityType)` triple returns the same internal id
both times, and after the second call the mapping table holds exactly one
row for the triple (the second call creates no row at all).  The
hypothesis is the table invariant that at most one row per triple exists
beforehand. -/
theorem getOrCreateMapping_idempotent (w : World) (src sid : String)
    (et : EntityType) (b1 b2 : Option String)
    (hwf : (w.importMappings.filter (matchesTriple src sid et)).length ≤ 1)
    (i1 i2 : String) (w1 w2 : World)
    (h1 : getOrCreateMapping src sid et b1 w = (i1, w1))
    (h2 : getOrCreateMapping src sid et b2 w1 = (i2, w2)) :
    i1 = i2 ∧
      (w2.importMappings.filter (matchesTriple src sid et)).length = 1 ∧
      w2.importMappings.length = w1.importMappings.length := by
  cases hfind : w.importMappings.find? (matchesTriple src sid et) with
  | some m =>
    rw [getOrCreateMapping, hfind] at h1
    simp only [Prod.mk.injEq] at h1
    obtain ⟨hi1, hw1⟩ := h1
    subst hw1
    rw [getOrCreateMapping, hfind] at h2
    simp only [Prod.mk.injEq] at h2
    obtain ⟨hi2, hw2⟩ := h2
    subst hw2
    refine ⟨hi1.symm.trans hi2, ?_, rfl⟩
    have hmem : m ∈ w.importMappings.filter (matchesTriple src sid et) :=
      List.mem_filter.mpr ⟨List.mem_of_find?_eq_some hfind, List.find?_some hfind⟩
    have hpos : 0 < (w.importMappings.filter (matchesTriple src sid et)).length :=
      List.length_pos.mpr (List.ne_nil_of_mem hmem)
    omega
  | none =>
    rw [getOrCreateMapping, hfind] at h1
    simp only [generateId, mintUlid, Prod.mk.injEq] at h1
    obtain ⟨hi1, hw1⟩ := h1
    set row : ImportMapping :=
      { sourceSystem := src, sourceId := sid
        internalId := entityPrefix et ++ "_" ++ ulidStr w.nextUlid
        entityType := et, importBatchId := b1 } with hrow
    have hw1m : w1.importMappings = w.importMappings ++ [row] := by
      rw [← hw1]
    have hmatch : matchesTriple src sid et row = true := by
      simp [matchesTriple, hrow]
    have hfind1 : w1.importMappings.find? (matchesTriple src sid et) = some row := by
      rw [hw1m, List.find?_append]
      simp [hfind, hmatch]
    rw [getOrCreateMapping, hfind1] at h2
    simp only [Prod.mk.injEq] at h2
    obtain ⟨hi2, hw2⟩ := h2
    subst hw2
    refine ⟨?_, ?_, rfl⟩
    · rw [← hi1, ← hi2]
    · rw [hw1m, List.filter_append]
      have hempty : w.importMappings.filter (matchesTriple src sid et) = [] :=
        List.filter_eq_nil_iff.mpr fun x hx => by
          have := List.find?_eq_none.mp hfind x hx
          simpa using this
      rw [hempty]
      simp [hmatch]

/-- Witness for C2: both calls on the empty store return the freshly
minted card id and leave exactly one matching row. -/
theorem getOrCreateMapping_idempotent_witness :
    "card_0" = "card_0" ∧
      ((((getOrCreateMapping "anki" "77" EntityType.card none
            (getOrCreateMapping "anki" "77" EntityType.card none World.empty).2).2).importMappings.filter
          (matchesTriple "anki" "77" EntityType.card)).length = 1) ∧
      (((getOrCreateMapping "anki" "77" EntityType.card none
            (getOrCreateMapping "anki" "77" EntityType.card none World.empty).2).2).importMappings.length =
        ((getOrCreateMapping "anki" "77" EntityType.card none World.empty).2).importMappings.length) := by
  have h := getOrCreateMapping_idempotent World.empty "anki" "77" EntityType.card
    none none (by decide)
    (getOrCreateMapping "anki" "77" EntityType.card none World.empty).1
    (getOrCreateMapping "anki" "77" EntityType.card none
      (getOrCreateMapping "anki" "77" EntityType.card none World.empty).2).1
    (getOrCreateMapping "anki" "77" EntityType.card none World.empty).2
    (getOrCreateMapping "anki" "77" EntityType.card none
      (getOrCreateMapping "anki" "77" EntityType.card none World.empty).2).2
    rfl rfl
  exact ⟨rfl, h.2.1, h.2.2⟩

/-- One deletion step of the rollback loop: the target card or deck is
gone, nothing is added, mappings and batches are untouched. -/
theorem rollbackDeleteStep_spec (acc : World) (m : ImportMapping) :
    (∀ c ∈ (rollbackDeleteStep acc m).cards, c ∈ acc.cards) ∧
    (∀ d ∈ (rollbackDeleteStep acc m).decks, d ∈ acc.decks) ∧
    (m.entityType = EntityType.card →
      ∀ c ∈ (rollbackDeleteStep acc m).cards, c.id ≠ m.internalId) ∧
    (m.entityType = EntityType.deck →
      ∀ d ∈ (rollbackDeleteStep acc m).decks, d.id ≠ m.internalId) ∧
    (rollbackDeleteStep acc m).importMappings = acc.importMappings ∧
    (rollbackDeleteStep acc m).importBatches = acc.importBatches := by
  cases het : m.entityType with
  | card =>
    simp only [rollbackDeleteStep, deleteByKey, het, reduceCtorEq, if_true, if_false]
    refine ⟨fun c hc => (List.mem_filter.mp hc).1, fun d hd => hd, ?_, ?_,
      by trivial, by trivial⟩
    · intro _ c hc
      simpa using (List.mem_filter.mp hc).2
    · intro h
      exact absurd h (by decide)
  | deck =>
    simp only [rollbackDeleteStep, deleteByKey, het, reduceCtorEq, if_true, if_false]
    refine ⟨fun c hc => hc, fun d hd => (List.mem_filter.mp hd).1, ?_, ?_,
      by trivial, by trivial⟩
    · intro h
      exact absurd h (by decide)
    · intro _ d hd
      simpa using (List.mem_filter.mp hd).2
  | note =>
    simp only [rollbackDeleteStep, deleteByKey, het, reduceCtorEq, if_true, if_false]
    exact ⟨fun c hc => hc, fun d hd => hd, fun h => absurd h (by decide),
      fun h => absurd h (by decide), by trivial, by trivial⟩
  | media =>
    simp only [rollbackDeleteStep, deleteByKey, het, reduceCtorEq, if_true, if_false]
    exact ⟨fun c hc => hc, fun d hd => hd, fun h => absurd h (by decide),
      fun h => absurd h (by decide), by trivial, by trivial⟩

/-- The whole rollback deletion loop: every card/deck pointed at by a
processed mapping is gone afterwards, no rows appear, mappings and
batches are untouched. -/
theorem rollbackDeleteStep_foldl_spec (ms : List ImportMapping) (acc : World) :
    (∀ c ∈ (ms.foldl rollbackDeleteStep acc).cards, c ∈ acc.cards) ∧
    (∀ d ∈ (ms.foldl rollbackDeleteStep acc).decks, d ∈ acc.decks) ∧
    (∀ m ∈ ms,
      (m.entityType = EntityType.card →
        ∀ c ∈ (ms.foldl rollbackDeleteStep acc).cards, c.id ≠ m.internalId) ∧
      (m.entityType = EntityType.deck →
        ∀ d ∈ (ms.foldl rollbackDeleteStep acc).decks, d.id ≠ m.internalId)) ∧
    (ms.foldl rollbackDeleteStep acc).importMappings = acc.importMappings ∧
    (ms.foldl rollbackDeleteStep acc).importBatches = acc.importBatches := by
  induction ms generalizing acc with
  | nil => simp
  | cons m ms ih =>
    obtain ⟨sc, sd, scard, sdeck, sm, sb⟩ := rollbackDeleteStep_spec acc m
    obtain ⟨ihc, ihd, ihm, ihmm, ihb⟩ := ih (rollbackDeleteStep acc m)
    simp only [List.foldl_cons]
    refine ⟨fun c hc => sc c (ihc c hc), fun d hd => sd d (ihd d hd), ?_,
      ihmm.trans sm, ihb.trans sb⟩
    intro m' hm'
    rcases List.mem_cons.mp hm' with rfl | hmem
    · exact ⟨fun het c hc => scard het c (ihc c hc),
        fun het d hd => sdeck het d (ihd d hd)⟩
    · exact ihm m' hmem

/-- Claim C4: `rollbackImportBatch` is one state transformation (the
source wraps it in a single Dexie `rw` transaction); afterwards every card
and every deck whose mapping belonged to the batch is gone, every mapping
row of the batch is gone, and the batch's status reads rolled_back. -/
theorem rollback_import_batch (w : World) (batchId : String)
    (hb : ∃ b ∈ w.importBatches, b.id = batchId) :
    (∀ m ∈ w.importMappings, m.importBatchId = some batchId →
        (m.entityType = EntityType.card →
          ∀ c ∈ (rollbackImportBatch batchId w).cards, c.id ≠ m.internalId) ∧
        (m.entityType = EntityType.deck →
          ∀ d ∈ (rollbackImportBatch batchId w).decks, d.id ≠ m.internalId)) ∧
    (∀ m ∈ (rollbackImportBatch batchId w).importMappings,
        m.importBatchId ≠ some batchId) ∧
    (∃ b ∈ (rollbackImportBatch batchId w).importBatches,
        b.id = batchId ∧ b.status = BatchStatus.rolled_back) := by
  obtain ⟨fc, fd, fm, fmm, fb⟩ :=
    rollbackDeleteStep_foldl_spec (getMappingsByBatch batchId w) w
  have hcards : (rollbackImportBatch batchId w).cards =
      ((getMappingsByBatch batchId w).foldl rollbackDeleteStep w).cards := rfl
  have hdecks : (rollbackImportBatch batchId w).decks =
      ((getMappingsByBatch batchId w).foldl rollbackDeleteStep w).decks := rfl
  refine ⟨?_, ?_, ?_⟩
  · intro m hm hmb
    have hmem : m ∈ getMappingsByBatch batchId w :=
      List.mem_filter.mpr ⟨hm, by simp [hmb]⟩
    obtain ⟨hc, hd⟩ := fm m hmem
    exact ⟨fun het => hcards ▸ hc het, fun het => hdecks ▸ hd het⟩
  · intro m hm
    have hmem : m ∈ ((getMappingsByBatch batchId w).foldl rollbackDeleteStep
        w).importMappings.filter (fun m => !(m.importBatchId == some batchId)) := hm
    have := (List.mem_filter.mp hmem).2
    simpa using this
  · obtain ⟨b, hbmem, hbid⟩ := hb
    refine ⟨{ b with status := BatchStatus.rolled_back }, ?_, hbid, rfl⟩
    show _ ∈ updateByKey ImportBatch.id
      ((getMappingsByBatch batchId w).foldl rollbackDeleteStep w).importBatches batchId
      (fun b => { b with status := BatchStatus.rolled_back })
    rw [fb]
    unfold updateByKey
    refine List.mem_map.mpr ⟨b, hbmem, ?_⟩
    simp [hbid]

/-- A one-batch demo store: one card, one deck, their two mappings under
batch `b1`, and the batch row itself. -/
def rollbackDemoWorld : World :=
  { cards := [{ id := "card_0", front := "f", back := "b", deckId := "deck_1"
                interval := 0, easeFactor := 5/2, repetitions := 0, lapses := 0
                totalReviews := 0, status := CardStatus.fresh, queue := 0 }]
    decks := [{ id := "deck_1", name := "D", cardCount := 1, dueCount := 0
                newCount := 1 }]
    importMappings :=
      [{ sourceSystem := "anki", sourceId := "100", internalId := "card_0"
         entityType := EntityType.card, importBatchId := some "b1" },
       { sourceSystem := "anki", sourceId := "5", internalId := "deck_1"
         entityType := EntityType.deck, importBatchId := some "b1" }]
    importBatches := [{ id := "b1", sourceSystem := "anki", fileName := none
                        status := BatchStatus.completed, notesImported := 1
                        cardsImported := 1, decksImported := 1 }]
    nextUlid := 2, clock := 0 }

/-- Witness for C4: the rollback theorem applied to the demo store. -/
theorem rollback_import_batch_witness :
    (∀ m ∈ (rollbackImportBatch "b1" rollbackDemoWorld).importMappings,
        m.importBatchId ≠ some "b1") ∧
    (∃ b ∈ (rollbackImportBatch "b1" rollbackDemoWorld).importBatches,
        b.id = "b1" ∧ b.status = BatchStatus.rolled_back) := by
  have h := rollback_import_batch rollbackDemoWorld "b1"
    ⟨{ id := "b1", sourceSystem := "anki", fileName := none
       status := BatchStatus.completed, notesImported := 1
       cardsImported := 1, decksImported := 1 }, by decide, rfl⟩
  exact ⟨h.2.1, h.2.2⟩

/-! ## Archive import (`importAnkiDeck` in src/lib/anki-import.ts)

The model starts where the collection database has been loaded: zip
handling, media storage and the SQL engine are abstracted away, and
`AnkiDb` holds the already-extracted table contents.  Numeric database
values that the importer immediately stringifies (`String(note[0])`) are
stored as strings. -/

/-- A note row `(id, mid, flds)` (the optional `tags` column is extracted
but never read by the note loop). -/
structure AnkiNote where
  id : String
  mid : String
  flds : String
deriving DecidableEq, Repr

/-- The embedded collection database as consumed by the schema extractor:
`decksTable = none` models "no decks table" (the modern query throws),
`some rows` a successful query with those rows; `colDecks` is the parsed
`decks` JSON of `col` as an ordered key/value list (`none` =
missing/unparseable); `notes` are the extracted note rows (`[]` = none
found); `models` is the parsed `models` JSON. -/
structure AnkiDb where
  decksTable : Option (List (String × String))
  colDecks : Option (List (String × String))
  notes : List AnkiNote
  models : List (String × AnkiModel)
deriving DecidableEq, Repr

/-- `extractDeckInfo`: prefer the first `decks`-table row; only when that
query throws (no such table), fall back to the `col.decks` JSON and take
the first key other than `"1"`; else the defaults
`("Imported Deck", null)`.  A present-but-empty `decks` table yields the
defaults without trying the fallback. -/
def extractDeckInfo (db : AnkiDb) : String × Option String :=
  match db.decksTable with
  | some rows =>
    match rows with
    | (id, name) :: _ => (name, some id)
    | [] => ("Imported Deck", none)
  | none =>
    match db.colDecks with
    | some entries =>
      match entries.find? (fun p => !(p.1 == "1")) with
      | some p => (p.2, some p.1)
      | none => ("Imported Deck", none)
    | none => ("Imported Deck", none)

/-- `fieldsData.split("\x1f")`. -/
def splitOnUS : List Char → List (List Char)
  | [] => [[]]
  | c :: cs =>
    if c = '\x1f' then [] :: splitOnUS cs
    else
      match splitOnUS cs with
      | f :: rest => (c :: f) :: rest
      | [] => [[c]]

/-- Field values of a note. -/
def splitFields (s : String) : List String := (splitOnUS s.data).map String.mk

/-- `processNoteWithFallback` (no model found): first field is the front,
second (or first) the back, `"No content"` placeholders, external id is
the bare note id; always exactly one card, no empty-card check. -/
def processNoteWithFallback (noteId : String) (fieldValues : List String) : CardSpec :=
  let processedFields := fieldValues.map (fun f => processHtml f)
  let emptyData : ProcessedHtml := { text := "", audio := [], images := [] }
  let frontData := processedFields.getD 0 emptyData
  let backData := processedFields.getD 1 (processedFields.getD 0 emptyData)
  { externalId := noteId
    front := if frontData.text.isEmpty then "No content" else frontData.text
    back :=
      if backData.text.isEmpty then
        (if frontData.text.isEmpty then "No content" else frontData.text)
      else backData.text
    frontAudio := frontData.audio.head?
    backAudio := backData.audio.head?
    frontImage := frontData.images.head?
    backImage := backData.images.head? }

/-- Persist one kept candidate: get-or-create the card mapping, build the
card via `SRSEngine.createCard` (its freshly minted id is immediately
overwritten by the mapped id), then `db.cards.add` — which rejects a
duplicate primary key. -/
def persistCardSpec (deckId batchId : String) (spec : CardSpec) (w : World) :
    World × Except String Unit :=
  let r1 := getOrCreateMapping "anki" spec.externalId EntityType.card (some batchId) w
  let r2 := srsCreateCard spec.front spec.back deckId r1.2
  let card : StoredCard :=
    { r2.1 with
      id := r1.1
      importSource := some "anki"
      externalId := some spec.externalId
      frontAudio := spec.frontAudio
      backAudio := spec.backAudio
      frontImage := spec.frontImage
      backImage := spec.backImage }
  match addByKey StoredCard.id r2.2.cards card with
  | Except.ok cs => ({ r2.2 with cards := cs }, Except.ok ())
  | Except.error e => (r2.2, Except.error e)

/-- Persist the kept candidates of one note in order, counting
`cardsCreated`; the first storage error aborts (there is no per-card
try/catch in the source). -/
def persistSpecs (deckId batchId : String) : List CardSpec → World → World × Except String ℕ
  | [], w => (w, Except.ok 0)
  | spec :: rest, w =>
    match persistCardSpec deckId batchId spec w with
    | (w1, Except.ok _) =>
      match persistSpecs deckId batchId rest w1 with
      | (w2, Except.ok n) => (w2, Except.ok (n + 1))
      | (w2, Except.error e) => (w2, Except.error e)
    | (w1, Except.error e) => (w1, Except.error e)

/-- The note loop of `importAnkiDeck`: skip a note with falsy `flds`;
without a model use the fallback (one card, counted once); with a model
process every direction-filtered template. -/
def importNotesLoop (deckId batchId : String) (modelsData : List (String × AnkiModel))
    (dir : CardDirection) : List AnkiNote → World → ℕ → World × Except String ℕ
  | [], w, count => (w, Except.ok count)
  | note :: rest, w, count =>
    if note.flds.isEmpty then importNotesLoop deckId batchId modelsData dir rest w count
    else
      let fieldValues := splitFields note.flds
      match modelsData.find? (fun p => p.1 == note.mid) with
      | none =>
        let spec := processNoteWithFallback note.id fieldValues
        match persistCardSpec deckId batchId spec w with
        | (w1, Except.ok _) =>
          importNotesLoop deckId batchId modelsData dir rest w1 (count + 1)
        | (w1, Except.error e) => (w1, Except.error e)
      | some p =>
        let specs := processNoteWithModel note.id fieldValues p.2 dir
        match persistSpecs deckId batchId specs w with
        | (w1, Except.ok n) =>
          importNotesLoop deckId batchId modelsData dir rest w1 (count + n)
        | (w1, Except.error e) => (w1, Except.error e)

/-- The deck get-or-create phase of `importAnkiDeck`: with an external
deck id, map it and create or (on re-import) update the deck row; without
one, always create a brand-new deck with no mapping. -/
def importDeckPhase (deckName : String) (ankiDeckId : Option String)
    (noteCount : ℕ) (isReimport : Bool) (batchId : String) (w : World) :
    World × Except String String :=
  match ankiDeckId with
  | some aid =>
    let rd := getOrCreateMapping "anki" aid EntityType.deck (some batchId) w
    let w2 := rd.2
    match dbGetDeck rd.1 w2 with
    | none =>
      match addByKey Deck.id w2.decks
          { id := rd.1, name := deckName
            description := some ("Imported from Anki (" ++ toString noteCount ++ " notes)")
            cardCount := 0, dueCount := 0, newCount := 0
            importSource := some "anki", externalId := some aid } with
      | Except.ok ds => ({ w2 with decks := ds }, Except.ok rd.1)
      | Except.error e => (w2, Except.error e)
    | some _ =>
      if isReimport then
        ({ w2 with decks := (updateByKey Deck.id w2.decks rd.1 (fun d =>
            { d with
              name := deckName
              description :=
                some ("Re-imported from Anki (" ++ toString noteCount ++ " notes)") })) },
          Except.ok rd.1)
      else (w2, Except.ok rd.1)
  | none =>
    match dbCreateDeck deckName
        (some ("Imported from Anki (" ++ toString noteCount ++ " notes)")) w with
    | Except.ok p => (p.2, Except.ok p.1)
    | Except.error e => (w, Except.error e)

/-- `importAnkiDeck(file, cardDirection)`'s result record. -/
structure AnkiImportResult where
  deckName : String
  cardCount : ℕ
  deckId : String
  isReimport : Bool
  importBatchId : String
deriving DecidableEq, Repr

/-- `importAnkiDeck`: extract deck info, notes and models; fail on zero
notes (before any batch exists); detect re-import through the deck
mapping; open a batch; run the deck phase and the note loop (any error
after batch creation marks the batch failed and rethrows); finally update
deck stats and complete the batch. -/
def importAnkiDeck (db : AnkiDb) (fileName : String) (dir : CardDirection)
    (w : World) : World × Except String AnkiImportResult :=
  let di := extractDeckInfo db
  if db.notes.isEmpty then
    (w, Except.error "No notes found in the deck.")
  else
    let existingBatchId :=
      match di.2 with
      | some aid => getDeckImportBatch "anki" aid w
      | none => none
    let isReimport := existingBatchId.isSome
    let rb := createImportBatch "anki" (some fileName) w
    let batchId := rb.1
    match importDeckPhase di.1 di.2 db.notes.length isReimport batchId rb.2 with
    | (w2, Except.error e) => (failImportBatch batchId w2, Except.error e)
    | (w2, Except.ok newDeckId) =>
      match importNotesLoop newDeckId batchId db.models dir db.notes w2 0 with
      | (w3, Except.error e) => (failImportBatch batchId w3, Except.error e)
      | (w3, Except.ok totalCardsCreated) =>
        let w4 := updateDeckStats newDeckId w3
        let w5 := completeImportBatch batchId db.notes.length totalCardsCreated 1 w4
        (w5, Except.ok
          { deckName := di.1, cardCount := totalCardsCreated
            deckId := newDeckId, isReimport := isReimport
            importBatchId := batchId })

/-! ## Archive export (`exportAnkiDeck` in src/lib/anki-export.ts)

Abstracted like the import: the produced archive holds the table contents
the SQL statements would write (the zip member is the legacy uncompressed
`collection.anki2`).  Integer columns the source obtains via
`parseInt(...)` of numeric id strings are kept as the strings, except the
generated card row id which the source computes as a number. -/

/-- A `cards`-table row as written by `insertCard`.  The remaining columns
are constants not shown here: `usn 0, left 0, odue 0, odid 0, flags 0,
data ""`, and `mod` is a timestamp. -/
structure AnkiCardRow where
  id : ℤ
  nid : String
  did : String
  ord : ℕ
  type : ℕ
  queue : ℕ
  due : ℤ
  ivl : ℤ
  factor : ℕ
  reps : ℕ
  lapses : ℕ
deriving DecidableEq, Repr

/-- `insertCard`: the scheduling columns are fixed new-card constants
(`type 0 = new`, `queue 0 = new`, `due 0`, `ivl 0`, `factor 2500`,
`reps 0`, `lapses 0`), whatever the internal card's state. -/
def insertCardRow (cardId : ℤ) (noteId deckId : String) : AnkiCardRow :=
  { id := cardId, nid := noteId, did := deckId, ord := 0
    type := 0, queue := 0, due := 0, ivl := 0, factor := 2500
    reps := 0, lapses := 0 }

/-- The generated "Basic" model of `insertBasicModel`: fields `Front` and
`Back`, one template `Card 1`. -/
def basicModel : AnkiModel :=
  { flds := [{ name := "Front" }, { name := "Back" }]
    tmpls := [{ qfmt := "\x7b\x7bFront\x7d\x7d"
                afmt := "\x7b\x7bFrontSide\x7d\x7d\n\n<hr id=answer>\n\n\x7b\x7bBack\x7d\x7d" }] }

/-- JS falsiness of an optional string (`""` counts as absent). -/
def truthy (o : Option String) : Option String :=
  match o with
  | some s => if s.isEmpty then none else some s
  | none => none

/-- The per-card external-id resolution of `exportAnkiDeck`: mapping
service reverse lookup, falling back to the stored `externalId` field. -/
def resolveCardExternalId (w : World) (card : StoredCard) : Option String :=
  match truthy (getExternalId card.id "anki" w) with
  | some e => some e
  | none => truthy card.externalId

/-- JS `parseInt` restricted to what the exporter feeds it: the leading
digit run, `NaN` (none) when there is none. -/
def jsParseInt (s : String) : Option ℤ :=
  let ds := s.data.takeWhile Char.isDigit
  if ds.isEmpty then none
  else some (Int.ofNat (ds.foldl (fun acc c => acc * 10 + (c.toNat - '0'.toNat)) 0))

/-- The note-id / card-row-id choice of the export loop: split a
`"noteId_templateIndex"` external id at `_` and generate a fresh numeric
card id; use a plain external id for both (parsing it as the card id when
numeric); or generate even/odd ids when the card was never imported. -/
def exportCardIdPair (baseTimestamp cardIndex : ℕ) (extId : Option String) :
    String × ℤ :=
  match extId with
  | some e =>
    if e.data.any (fun c => c = '_') then
      (String.mk (e.data.takeWhile (fun c => c ≠ '_')), (baseTimestamp + cardIndex : ℕ))
    else
      match jsParseInt e with
      | some n => (e, n)
      | none => (e, (baseTimestamp + cardIndex : ℕ))
  | none =>
    (Nat.repr (baseTimestamp + cardIndex * 2), ((baseTimestamp + cardIndex * 2 + 1 : ℕ) : ℤ))

/-- The note/card insertion loop of `exportAnkiDeck`: one note per unique
note id (`insertedNotes` set; the first card sharing the note supplies
`flds = front + "\x1f" + back`), one card row per card. -/
def buildExportRows (w : World) (baseTimestamp : ℕ) (modelId ankiDeckId : String) :
    List StoredCard → ℕ → List String → List AnkiNote × List AnkiCardRow
  | [], _, _ => ([], [])
  | card :: rest, cardIndex, insertedNotes =>
    let ids := exportCardIdPair baseTimestamp cardIndex (resolveCardExternalId w card)
    let noteId := ids.1
    let seen := insertedNotes.contains noteId
    let r := buildExportRows w baseTimestamp modelId ankiDeckId rest (cardIndex + 1)
        (if seen then insertedNotes else noteId :: insertedNotes)
    (if seen then r.1
     else { id := noteId, mid := modelId
            flds := card.front ++ "\x1f" ++ card.back } :: r.1,
      insertCardRow ids.2 noteId ankiDeckId :: r.2)

/-- `sanitizeFileName`: invalid characters to `_`, whitespace runs to a
single `_`, first 100 characters. -/
def sanitizeFileName (name : String) : String :=
  let step1 := name.data.map (fun c =>
    if c.isAlphanum || c = '_' || c = '-' || c = ' ' then c else '_')
  String.mk (((collapseWs step1).map (fun c => if c = ' ' then '_' else c)).take 100)

/-- The produced archive: the collection database content, the cards
table, the download file name and the card count. -/
structure ExportedArchive where
  db : AnkiDb
  cardRows : List AnkiCardRow
  fileName : String
  cardCount : ℕ
deriving DecidableEq, Repr

/-- `exportAnkiDeck`: fail when the deck is missing or empty; resolve the
deck's original external id (mapping service, `externalId` field, fresh
`Date.now()`); generate the Basic model id and the base timestamp; emit
deck JSON, one note per unique note id, and one cards-table row per card
(no `decks` table is created — only the `col.decks` JSON). -/
def exportAnkiDeck (deckId : String) (w : World) :
    World × Except String ExportedArchive :=
  match dbGetDeck deckId w with
  | none => (w, Except.error "Deck not found")
  | some deck =>
    let cards := w.cards.filter (fun c => c.deckId == deckId)
    if cards.isEmpty then (w, Except.error "Deck has no cards to export")
    else
      let rAid :=
        match truthy (getExternalId deckId "anki" w) with
        | some a => (a, w)
        | none =>
          match truthy deck.externalId with
          | some a => (a, w)
          | none =>
            let rn := jsNow w
            (Nat.repr rn.1, rn.2)
      let ankiDeckId := rAid.1
      let rm := jsNow rAid.2
      let modelId := Nat.repr rm.1
      let rb := jsNow rm.2
      let rows := buildExportRows rb.2 rb.1 modelId ankiDeckId cards 0 []
      (rb.2, Except.ok
        { db := { decksTable := none
                  colDecks := some [(ankiDeckId, deck.name)]
                  notes := rows.1
                  models := [(modelId, basicModel)] }
          cardRows := rows.2
          fileName := sanitizeFileName deck.name ++ ".apkg"
          cardCount := cards.length })

/-! ## Claims about the import/export pipeline -/

/-- A small archive with a decks table (`id 5, "MyDeck"`), one note
`Q / A`, and a model identical to the export's Basic model. -/
def sampleArchive : AnkiDb :=
  { decksTable := some [("5", "MyDeck")], colDecks := none
    notes := [{ id := "100", mid := "9", flds := "Q\x1fA" }]
    models := [("9", basicModel)] }

/-- The round trip of claim C1: `importArchive(X)`, `exportDeck` on the
returned deck id, `importArchive` of the export into a fresh mapping
space; the result pairs the first import's card texts with the
re-import's. -/
def roundTrip (db : AnkiDb) :
    Except String (List (String × String) × List (String × String)) :=
  let r1 := importAnkiDeck db "deck.apkg" CardDirection.all World.empty
  match r1.2 with
  | Except.error e => Except.error e
  | Except.ok res =>
    match (exportAnkiDeck res.deckId r1.1).2 with
    | Except.error e => Except.error e
    | Except.ok a =>
      let r2 := importAnkiDeck a.db a.fileName CardDirection.all World.empty
      match r2.2 with
      | Except.error e => Except.error e
      | Except.ok _ => Except.ok
          (r1.1.cards.map (fun c => (c.front, c.back)),
           r2.1.cards.map (fun c => (c.front, c.back)))

/-- Counterexample to claim C1: on `sampleArchive` the round trip keeps
the card count and the front text but the re-imported back text is
`"Q Q A"`, not the original `"Q A"` — the export's Basic answer template
prefixes `{{FrontSide}}`, and re-import flattens it into the back text. -/
theorem round_trip_back_text_changed :
    roundTrip sampleArchive = Except.ok ([("Q", "Q A")], [("Q", "Q Q A")]) ∧
      ("Q Q A" : String) ≠ "Q A" := by
  exact ⟨by decide, by decide⟩

/-- Evaluation of claim C3 at its failing input: the second import of the
same archive into the same mapping space reuses the mapped card id and
`db.cards.add` rejects the duplicate primary key, so the re-import throws
and its batch is marked failed — while the deck row's description was
already updated and no duplicate card was stored. -/
theorem reimport_constraint_error :
    (importAnkiDeck sampleArchive "deck.apkg" CardDirection.all World.empty).2.toOption.map
        (fun r => (r.cardCount, r.isReimport)) = some (1, false) ∧
    (importAnkiDeck sampleArchive "deck.apkg" CardDirection.all
        (importAnkiDeck sampleArchive "deck.apkg" CardDirection.all World.empty).1).2 =
      Except.error "ConstraintError" ∧
    (importAnkiDeck sampleArchive "deck.apkg" CardDirection.all
        (importAnkiDeck sampleArchive "deck.apkg" CardDirection.all World.empty).1).1.cards.length = 1 ∧
    (importAnkiDeck sampleArchive "deck.apkg" CardDirection.all
        (importAnkiDeck sampleArchive "deck.apkg" CardDirection.all World.empty).1).1.decks.map
        (fun d => (d.name, d.description)) =
      [("MyDeck", some "Re-imported from Anki (1 notes)")] ∧
    (importAnkiDeck sampleArchive "deck.apkg" CardDirection.all
        (importAnkiDeck sampleArchive "deck.apkg" CardDirection.all World.empty).1).1.importBatches.map
        (fun b => b.status) = [BatchStatus.completed, BatchStatus.failed] := by
  refine ⟨by decide, by decide, by decide, by decide, by decide⟩

/-- Every cards-table row the export loop emits carries the fixed
new-card scheduling constants. -/
theorem buildExportRows_constants (w : World) (bt : ℕ) (mid aid : String) :
    ∀ (cs : List StoredCard) (idx : ℕ) (seen : List String),
      ∀ row ∈ (buildExportRows w bt mid aid cs idx seen).2,
        row.ord = 0 ∧ row.type = 0 ∧ row.queue = 0 ∧ row.due = 0 ∧
          row.ivl = 0 ∧ row.factor = 2500 ∧ row.reps = 0 ∧ row.lapses = 0 := by
  intro cs
  induction cs with
  | nil => intro idx seen row hrow; simp [buildExportRows] at hrow
  | cons card rest ih =>
    intro idx seen row hrow
    simp only [buildExportRows] at hrow
    rcases List.mem_cons.mp hrow with rfl | htail
    · simp [insertCardRow]
    · exact ih (idx + 1) _ row htail

/-- A store holding one deck and one well-reviewed card
(`interval 10, easeFactor 2, repetitions 3, lapses 2, status review`). -/
def reviewedWorld : World :=
  { cards := [{ id := "card_0", front := "Q", back := "A", deckId := "d1"
                interval := 10, easeFactor := 2, repetitions := 3, lapses := 2
                totalReviews := 7, status := CardStatus.review, queue := 2 }]
    decks := [{ id := "d1", name := "Reviewed", cardCount := 1, dueCount := 0
                newCount := 0 }]
    importMappings := [], importBatches := [], nextUlid := 1, clock := 0 }

/-- Counterexample to claim C9: exporting a deck whose card has
`interval 10, repetitions 3, lapses 2` emits a cards-table row with
`ivl 0, reps 0, lapses 0, factor 2500` — the scheduling state is reset to
fixed new-card values, it does not round-trip. -/
theorem export_scheduling_reset_counterexample :
    (exportAnkiDeck "d1" reviewedWorld).2.toOption.map
        (fun a => a.cardRows.map (fun r => (r.ivl, r.reps, r.lapses, r.factor))) =
      some [(0, 0, 0, 2500)] ∧
    reviewedWorld.cards.map (fun c => (c.interval, c.repetitions, c.lapses)) =
      [(10, 3, 2)] ∧
    (0 : ℤ) ≠ 10 := by
  refine ⟨by decide, by decide, by decide⟩

/-- Claim C9 (amended): for every successful export, every emitted card
row carries the fixed new-card scheduling constants (`type 0, queue 0,
due 0, ivl 0, factor 2500, reps 0, lapses 0`), regardless of the internal
card's scheduling state. -/
theorem export_card_rows_reset (deckId : String) (w w' : World)
    (a : ExportedArchive) (h : exportAnkiDeck deckId w = (w', Except.ok a)) :
    ∀ row ∈ a.cardRows,
      row.ord = 0 ∧ row.type = 0 ∧ row.queue = 0 ∧ row.due = 0 ∧
        row.ivl = 0 ∧ row.factor = 2500 ∧ row.reps = 0 ∧ row.lapses = 0 := by
  rcases hd : dbGetDeck deckId w with _ | deck
  · rw [exportAnkiDeck, hd] at h
    simp at h
  · rw [exportAnkiDeck, hd] at h
    dsimp only at h
    by_cases hempty : (w.cards.filter (fun c => c.deckId == deckId)).isEmpty
    · rw [if_pos hempty] at h
      simp at h
    · rw [if_neg hempty] at h
      simp only [Prod.mk.injEq, Except.ok.injEq] at h
      have ha := h.2
      intro row hrow
      rw [← ha] at hrow
      exact buildExportRows_constants _ _ _ _ _ _ _ row hrow

/-- The archive `exportAnkiDeck` produces from `reviewedWorld` (fully
evaluated). -/
def reviewedArchive : ExportedArchive :=
  { db := { decksTable := none
            colDecks := some [("0", "Reviewed")]
            notes := [{ id := "2", mid := "1", flds := "Q\x1fA" }]
            models := [("1", basicModel)] }
    cardRows := [{ id := 3, nid := "2", did := "0", ord := 0, type := 0
                   queue := 0, due := 0, ivl := 0, factor := 2500, reps := 0
                   lapses := 0 }]
    fileName := "Reviewed.apkg"
    cardCount := 1 }

/-- Witness for C9 (amended): the amended theorem applied to the
one-card reviewed store and its single emitted card row. -/
theorem export_card_rows_reset_witness :
    ({ id := 3, nid := "2", did := "0", ord := 0, type := 0, queue := 0
       due := 0, ivl := 0, factor := 2500, reps := 0
       lapses := 0 } : AnkiCardRow).ord = 0 ∧
    ({ id := 3, nid := "2", did := "0", ord := 0, type := 0, queue := 0
       due := 0, ivl := 0, factor := 2500, reps := 0
       lapses := 0 } : AnkiCardRow).type = 0 ∧
    ({ id := 3, nid := "2", did := "0", ord := 0, type := 0, queue := 0
       due := 0, ivl := 0, factor := 2500, reps := 0
       lapses := 0 } : AnkiCardRow).queue = 0 ∧
    ({ id := 3, nid := "2", did := "0", ord := 0, type := 0, queue := 0
       due := 0, ivl := 0, factor := 2500, reps := 0
       lapses := 0 } : AnkiCardRow).due = 0 ∧
    ({ id := 3, nid := "2", did := "0", ord := 0, type := 0, queue := 0
       due := 0, ivl := 0, factor := 2500, reps := 0
       lapses := 0 } : AnkiCardRow).ivl = 0 ∧
    ({ id := 3, nid := "2", did := "0", ord := 0, type := 0, queue := 0
       due := 0, ivl := 0, factor := 2500, reps := 0
       lapses := 0 } : AnkiCardRow).factor = 2500 ∧
    ({ id := 3, nid := "2", did := "0", ord := 0, type := 0, queue := 0
       due := 0, ivl := 0, factor := 2500, reps := 0
       lapses := 0 } : AnkiCardRow).reps = 0 ∧
    ({ id := 3, nid := "2", did := "0", ord := 0, type := 0, queue := 0
       due := 0, ivl := 0, factor := 2500, reps := 0
       lapses := 0 } : AnkiCardRow).lapses = 0 :=
  export_card_rows_reset "d1" reviewedWorld
    { reviewedWorld with clock := 3 } reviewedArchive (by decide)
    { id := 3, nid := "2", did := "0", ord := 0, type := 0, queue := 0
      due := 0, ivl := 0, factor := 2500, reps := 0, lapses := 0 }
    (by decide)

/-- The deck-mapping rows of a store. -/
def deckMappings (w : World) : List ImportMapping :=
  w.importMappings.filter (fun m => m.entityType == EntityType.deck)

/-- A successful `addByKey` appends the row, whose key is fresh. -/
theorem addByKey_ok {α : Type} (key : α → String) (rows : List α) (row : α)
    (res : List α) (h : addByKey key rows row = Except.ok res) :
    res = rows ++ [row] ∧ ∀ r ∈ rows, key r ≠ key row := by
  unfold addByKey at h
  by_cases hany : rows.any (fun r => key r == key row)
  · rw [if_pos hany] at h; cases h
  · rw [if_neg hany] at h
    refine ⟨(Except.ok.injEq _ _ ▸ h).symm, ?_⟩
    intro r hr heq
    exact hany (List.any_eq_true.mpr ⟨r, hr, by simp [heq]⟩)

/-- `getOrCreateMapping` for a card id touches neither cards, decks,
batches nor the deck-mapping rows. -/
theorem getOrCreateMapping_card_tables (src sid : String) (b : Option String)
    (w : World) :
    ((getOrCreateMapping src sid EntityType.card b w).2).cards = w.cards ∧
    ((getOrCreateMapping src sid EntityType.card b w).2).decks = w.decks ∧
    ((getOrCreateMapping src sid EntityType.card b w).2).importBatches = w.importBatches ∧
    deckMappings ((getOrCreateMapping src sid EntityType.card b w).2) = deckMappings w := by
  unfold getOrCreateMapping
  cases hfind : w.importMappings.find? (matchesTriple src sid EntityType.card) with
  | some m => exact ⟨rfl, rfl, rfl, rfl⟩
  | none =>
    refine ⟨rfl, rfl, rfl, ?_⟩
    show (w.importMappings ++ [_]).filter _ = _
    rw [List.filter_append]
    simp [deckMappings]

/-- `persistCardSpec` only changes the cards table, the card mappings and
the generators. -/
theorem persistCardSpec_tables (deckId batchId : String) (spec : CardSpec)
    (w : World) :
    ((persistCardSpec deckId batchId spec w).1).decks = w.decks ∧
    ((persistCardSpec deckId batchId spec w).1).importBatches = w.importBatches ∧
    deckMappings ((persistCardSpec deckId batchId spec w).1) = deckMappings w := by
  obtain ⟨hc, hd, hb, hm⟩ :=
    getOrCreateMapping_card_tables "anki" spec.externalId (some batchId) w
  unfold persistCardSpec
  dsimp only
  split
  · exact ⟨hd, hb, hm⟩
  · exact ⟨hd, hb, hm⟩

/-- `persistSpecs` preserves decks, batches and deck mappings. -/
theorem persistSpecs_tables (deckId batchId : String) (specs : List CardSpec)
    (w : World) :
    ((persistSpecs deckId batchId specs w).1).decks = w.decks ∧
    ((persistSpecs deckId batchId specs w).1).importBatches = w.importBatches ∧
    deckMappings ((persistSpecs deckId batchId specs w).1) = deckMappings w := by
  induction specs generalizing w with
  | nil => exact ⟨rfl, rfl, rfl⟩
  | cons spec rest ih =>
    obtain ⟨hd, hb, hm⟩ := persistCardSpec_tables deckId batchId spec w
    unfold persistSpecs
    cases hp : persistCardSpec deckId batchId spec w with
    | mk w1 res =>
      rw [hp] at hd hb hm
      dsimp only at hd hb hm
      cases res with
      | ok u =>
        dsimp only
        obtain ⟨ihd, ihb, ihm⟩ := ih w1
        cases hrest : persistSpecs deckId batchId rest w1 with
        | mk w2 res2 =>
          rw [hrest] at ihd ihb ihm
          dsimp only at ihd ihb ihm
          cases res2 with
          | ok n => exact ⟨ihd.trans hd, ihb.trans hb, ihm.trans hm⟩
          | error e => exact ⟨ihd.trans hd, ihb.trans hb, ihm.trans hm⟩
      | error e => exact ⟨hd, hb, hm⟩

/-- The note loop preserves decks, batches and deck mappings. -/
theorem importNotesLoop_tables (deckId batchId : String)
    (modelsData : List (String × AnkiModel)) (dir : CardDirection)
    (notes : List AnkiNote) (w : World) (n : ℕ) :
    ((importNotesLoop deckId batchId modelsData dir notes w n).1).decks = w.decks ∧
    ((importNotesLoop deckId batchId modelsData dir notes w n).1).importBatches =
      w.importBatches ∧
    deckMappings ((importNotesLoop deckId batchId modelsData dir notes w n).1) =
      deckMappings w := by
  induction notes generalizing w n with
  | nil => exact ⟨rfl, rfl, rfl⟩
  | cons note rest ih =>
    unfold importNotesLoop
    by_cases hflds : note.flds.isEmpty
    · rw [if_pos hflds]
      exact ih w n
    · rw [if_neg hflds]
      dsimp only
      cases hfind : modelsData.find? (fun p => p.1 == note.mid) with
      | none =>
        dsimp only
        obtain ⟨hd, hb, hm⟩ := persistCardSpec_tables deckId batchId
          (processNoteWithFallback note.id (splitFields note.flds)) w
        cases hp : persistCardSpec deckId batchId
            (processNoteWithFallback note.id (splitFields note.flds)) w with
        | mk w1 res =>
          rw [hp] at hd hb hm
          dsimp only at hd hb hm
          cases res with
          | ok u =>
            dsimp only
            obtain ⟨ihd, ihb, ihm⟩ := ih w1 (n + 1)
            exact ⟨ihd.trans hd, ihb.trans hb, ihm.trans hm⟩
          | error e => exact ⟨hd, hb, hm⟩
      | some p =>
        dsimp only
        obtain ⟨hd, hb, hm⟩ := persistSpecs_tables deckId batchId
          (processNoteWithModel note.id (splitFields note.flds) p.2 dir) w
        cases hp : persistSpecs deckId batchId
            (processNoteWithModel note.id (splitFields note.flds) p.2 dir) w with
        | mk w1 res =>
          rw [hp] at hd hb hm
          dsimp only at hd hb hm
          cases res with
          | ok k =>
            dsimp only
            obtain ⟨ihd, ihb, ihm⟩ := ih w1 (n + k)
            exact ⟨ihd.trans hd, ihb.trans hb, ihm.trans hm⟩
          | error e => exact ⟨hd, hb, hm⟩

/-- `updateByKey` with a key-preserving update leaves the key column
unchanged. -/
theorem updateByKey_map_key {α : Type} (key : α → String) (rows : List α)
    (k : String) (f : α → α) (hf : ∀ r, key (f r) = key r) :
    (updateByKey key rows k f).map key = rows.map key := by
  unfold updateByKey
  rw [List.map_map]
  apply List.map_congr_left
  intro a _
  by_cases h : (key a == k) = true
  · simp [Function.comp, h, hf]
  · simp [Function.comp, h]

/-- One `importAnkiDeck` run on an archive from which no external deck id
can be extracted: the result is never flagged as a re-import, a brand-new
deck with a fresh id is appended, and no deck mapping is created. -/
theorem importAnkiDeck_no_deck_id (db : AnkiDb) (fn : String)
    (dir : CardDirection) (nm : String) (w w' : World) (r : AnkiImportResult)
    (hinfo : extractDeckInfo db = (nm, none))
    (h : importAnkiDeck db fn dir w = (w', Except.ok r)) :
    r.isReimport = false ∧
    w'.decks.map Deck.id = w.decks.map Deck.id ++ [r.deckId] ∧
    (∀ d ∈ w.decks, d.id ≠ r.deckId) ∧
    deckMappings w' = deckMappings w := by
  unfold importAnkiDeck at h
  rw [hinfo] at h
  dsimp only at h
  by_cases hemp : db.notes.isEmpty
  · rw [if_pos hemp] at h
    simp at h
  · rw [if_neg hemp] at h
    rw [importDeckPhase] at h
    rw [dbCreateDeck] at h
    try dsimp only at h
    cases hadd : addByKey Deck.id
        (generateId "deck" (createImportBatch "anki" (some fn) w).2).2.decks
        { id := (generateId "deck" (createImportBatch "anki" (some fn) w).2).1
          name := nm
          description := some ("Imported from Anki (" ++ toString db.notes.length ++ " notes)")
          cardCount := 0, dueCount := 0, newCount := 0
          importSource := none, externalId := none } with
    | error e =>
      rw [hadd] at h
      simp at h
    | ok ds =>
      rw [hadd] at h
      dsimp only at h
      obtain ⟨hds, hfresh⟩ := addByKey_ok _ _ _ _ hadd
      have hgdecks : (generateId "deck" (createImportBatch "anki" (some fn) w).2).2.decks
          = w.decks := rfl
      cases hloop : importNotesLoop (generateId "deck" (createImportBatch "anki" (some fn) w).2).1
          (createImportBatch "anki" (some fn) w).1 db.models dir db.notes
          { (generateId "deck" (createImportBatch "anki" (some fn) w).2).2 with decks := ds } 0 with
      | mk w3 res3 =>
        rw [hloop] at h
        obtain ⟨hld, hlb, hlm⟩ := importNotesLoop_tables
          (generateId "deck" (createImportBatch "anki" (some fn) w).2).1
          (createImportBatch "anki" (some fn) w).1 db.models dir db.notes
          { (generateId "deck" (createImportBatch "anki" (some fn) w).2).2 with decks := ds } 0
        rw [hloop] at hld hlb hlm
        dsimp only at hld hlb hlm
        cases res3 with
        | error e =>
          simp at h
        | ok n =>
          dsimp only at h
          rw [Prod.mk.injEq, Except.ok.injEq] at h
          obtain ⟨hw', hr⟩ := h
          subst hw'
          refine ⟨by rw [← hr]; rfl, ?_, ?_, ?_⟩
          · have h1 : (updateDeckStats
                  ((generateId "deck" (createImportBatch "anki" (some fn) w).2).1)
                  w3).decks.map Deck.id = w3.decks.map Deck.id := by
              unfold updateDeckStats
              dsimp only
              exact updateByKey_map_key _ _ _ _ (fun d => rfl)
            show (updateDeckStats
                ((generateId "deck" (createImportBatch "anki" (some fn) w).2).1)
                w3).decks.map Deck.id = List.map Deck.id w.decks ++ [r.deckId]
            rw [h1, hld, hds, hgdecks, List.map_append]
            simp [← hr]
          · intro d hd heq
            rw [hgdecks] at hfresh
            exact hfresh d hd (by rw [heq, ← hr])
          · show deckMappings (updateDeckStats
                ((generateId "deck" (createImportBatch "anki" (some fn) w).2).1)
                w3) = deckMappings w
            unfold updateDeckStats deckMappings at *
            dsimp only at *
            exact hlm

/-- An archive whose `decks` table is present but empty and whose `col`
fallback is never consulted: no deck id can be extracted. -/
def noIdArchive : AnkiDb :=
  { decksTable := some [], colDecks := none
    notes := [{ id := "100", mid := "9", flds := "Q\x1fA" }]
    models := [("9", basicModel)] }

/-- Claim C10: for every archive from which no external deck id can be
extracted, `importAnkiDeck` returns `isReimport = false` and creates a
brand-new deck with a freshly generated id and no deck mapping — so
re-import detection and in-place update never apply; importing the same
id-less archive twice leaves two distinct decks in the store (the second
run creates its own fresh deck before it aborts on the duplicate-card
insert). -/
theorem import_without_deck_id_never_reimports :
    (∀ (db : AnkiDb) (fn : String) (dir : CardDirection) (nm : String)
        (w w' : World) (r : AnkiImportResult),
        extractDeckInfo db = (nm, none) →
        importAnkiDeck db fn dir w = (w', Except.ok r) →
        r.isReimport = false ∧
        w'.decks.map Deck.id = w.decks.map Deck.id ++ [r.deckId] ∧
        (∀ d ∈ w.decks, d.id ≠ r.deckId) ∧
        deckMappings w' = deckMappings w) ∧
    (importAnkiDeck noIdArchive "x.apkg" CardDirection.all World.empty).2.toOption.map
        (fun r => (r.isReimport, r.deckId)) = some (false, "deck_u") ∧
    ((importAnkiDeck noIdArchive "x.apkg" CardDirection.all
        (importAnkiDeck noIdArchive "x.apkg" CardDirection.all
          World.empty).1).1).decks.map Deck.id = ["deck_u", "deck_uuuuu"] ∧
    ("deck_u" : String) ≠ "deck_uuuuu" ∧
    deckMappings ((importAnkiDeck noIdArchive "x.apkg" CardDirection.all
        (importAnkiDeck noIdArchive "x.apkg" CardDirection.all
          World.empty).1).1) = [] := by
  refine ⟨?_, by decide, by decide, by decide, by decide⟩
  intro db fn dir nm w w' r hinfo h
  exact importAnkiDeck_no_deck_id db fn dir nm w w' r hinfo h

/-- Witness for C10: the universal conjunct applied to the concrete
id-less archive and the empty store. -/
theorem import_without_deck_id_never_reimports_witness :
    ({ deckName := "Imported Deck", cardCount := 1, deckId := "deck_u"
       isReimport := false, importBatchId := "batch_" } : AnkiImportResult).isReimport
      = false :=
  (import_without_deck_id_never_reimports.1 noIdArchive "x.apkg" CardDirection.all
    "Imported Deck" World.empty
    (importAnkiDeck noIdArchive "x.apkg" CardDirection.all World.empty).1
    { deckName := "Imported Deck", cardCount := 1, deckId := "deck_u"
      isReimport := false, importBatchId := "batch_" }
    (by decide) (Prod.ext_iff.mpr ⟨rfl, by decide⟩)).1

/-! ## Clean text: strings every normalizer stage passes through
unchanged.  Used to characterize the texts a first import produces and
the round-trip behaviour of the exporter (claim C1). -/

/-- No two adjacent spaces. -/
def noDoubleSpace : List Char → Bool
  | a :: b :: rest => !(a = ' ' && b = ' ') && noDoubleSpace (b :: rest)
  | _ => true

/-- The first character (if any) is not a space. -/
def headNotSpace : List Char → Bool
  | c :: _ => !(c = ' ')
  | [] => true

/-- The last character (if any) is not a space. -/
def lastNotSpace : List Char → Bool
  | [] => true
  | [c] => !(c = ' ')
  | _ :: c :: rest => lastNotSpace (c :: rest)

/-- Plain study text: no character case-folding to `<`, no `[`, no field
separator, and whitespace only as single interior spaces. -/
def plainText (s : String) : Bool :=
  s.data.all (fun c =>
    !(ciEq '<' c) && !(c = '[') && !(c = '\x1f') && (!c.isWhitespace || c = ' ')) &&
  noDoubleSpace s.data && headNotSpace s.data && lastNotSpace s.data

/-- A sound token can only start with `[`. -/
theorem matchSound_none (c : Char) (cs : List Char) (h : c ≠ '[') :
    matchSound (c :: cs) = none := by
  unfold matchSound
  rw [if_neg]
  simp [soundOpen, List.isPrefixOf]
  intro hc
  exact absurd hc.symm h

/-- `removeSoundsF` is the identity on bracket-free text (any fuel). -/
theorem removeSoundsF_id (fuel : ℕ) (l : List Char) (h : ∀ c ∈ l, c ≠ '[') :
    removeSoundsF fuel l = l := by
  induction fuel generalizing l with
  | zero => rfl
  | succ n ih =>
    cases l with
    | nil => rfl
    | cons c cs =>
      rw [removeSoundsF, matchSound_none c cs (h c (List.mem_cons_self c cs))]
      rw [ih cs (fun x hx => h x (List.mem_cons_of_mem c hx))]

/-- `extractSoundsF` finds nothing in bracket-free text (any fuel). -/
theorem extractSoundsF_nil (fuel : ℕ) (l : List Char) (h : ∀ c ∈ l, c ≠ '[') :
    extractSoundsF fuel l = [] := by
  induction fuel generalizing l with
  | zero => rfl
  | succ n ih =>
    cases l with
    | nil => rfl
    | cons c cs =>
      rw [extractSoundsF, matchSound_none c cs (h c (List.mem_cons_self c cs))]
      exact ih cs (fun x hx => h x (List.mem_cons_of_mem c hx))

/-- Positions where an `<img` tag cannot start: either the first character
does not case-fold to `<`, or the following character does not case-fold
to `i`. -/
def imgFree : List Char → Bool
  | [] => true
  | [_] => true
  | c :: d :: rest => (!(ciEq '<' c) || !(ciEq 'i' d)) && imgFree (d :: rest)

/-- The tag matcher fails wherever `imgFree` holds of the head pair. -/
theorem matchImgTag_none (c : Char) (cs : List Char)
    (h : ciEq '<' c = false ∨ (∃ d rest, cs = d :: rest ∧ ciEq 'i' d = false) ∨ cs = []) :
    matchImgTag (c :: cs) = none := by
  have hpre : ciIsPrefixOf imgOpen (c :: cs) = false := by
    rcases h with h | ⟨d, rest, rfl, hd⟩ | rfl
    · simp [imgOpen, ciIsPrefixOf, h]
    · simp [imgOpen, ciIsPrefixOf, hd]
    · simp [imgOpen, ciIsPrefixOf]
  simp [matchImgTag, hpre]

/-- `removeImgsF` is the identity on `imgFree` text (any fuel). -/
theorem removeImgsF_id (fuel : ℕ) (l : List Char) (h : imgFree l = true) :
    removeImgsF fuel l = l := by
  induction fuel generalizing l with
  | zero => rfl
  | succ n ih =>
    cases l with
    | nil => rfl
    | cons c cs =>
      have hnone : matchImgTag (c :: cs) = none := by
        cases cs with
        | nil => exact matchImgTag_none c [] (Or.inr (Or.inr rfl))
        | cons d rest =>
          have h' := h
          simp only [imgFree, Bool.and_eq_true, Bool.or_eq_true,
            Bool.not_eq_true'] at h'
          rcases h'.1 with h1 | h1
          · exact matchImgTag_none c (d :: rest) (Or.inl h1)
          · exact matchImgTag_none c (d :: rest)
              (Or.inr (Or.inl ⟨d, rest, rfl, h1⟩))
      rw [removeImgsF, hnone]
      have hcs : imgFree cs = true := by
        cases cs with
        | nil => rfl
        | cons d rest =>
          have h' := h
          simp only [imgFree, Bool.and_eq_true] at h'
          exact h'.2
      rw [ih cs hcs]

/-- `extractImgsF` finds nothing in `imgFree` text (any fuel). -/
theorem extractImgsF_nil (fuel : ℕ) (l : List Char) (h : imgFree l = true) :
    extractImgsF fuel l = [] := by
  induction fuel generalizing l with
  | zero => rfl
  | succ n ih =>
    cases l with
    | nil => rfl
    | cons c cs =>
      have hnone : matchImgTag (c :: cs) = none := by
        cases cs with
        | nil => exact matchImgTag_none c [] (Or.inr (Or.inr rfl))
        | cons d rest =>
          have h' := h
          simp only [imgFree, Bool.and_eq_true, Bool.or_eq_true,
            Bool.not_eq_true'] at h'
          rcases h'.1 with h1 | h1
          · exact matchImgTag_none c (d :: rest) (Or.inl h1)
          · exact matchImgTag_none c (d :: rest)
              (Or.inr (Or.inl ⟨d, rest, rfl, h1⟩))
      rw [extractImgsF, hnone]
      have hcs : imgFree cs = true := by
        cases cs with
        | nil => rfl
        | cons d rest =>
          have h' := h
          simp only [imgFree, Bool.and_eq_true] at h'
          exact h'.2
      exact ih cs hcs

/-- Lists whose characters never case-fold to `<` are `imgFree`. -/
theorem imgFree_of_no_lt (l : List Char) (h : ∀ c ∈ l, ciEq '<' c = false) :
    imgFree l = true := by
  induction l with
  | nil => rfl
  | cons c cs ih =>
    cases cs with
    | nil => rfl
    | cons d rest =>
      rw [imgFree]
      have htail : imgFree (d :: rest) = true :=
        ih (fun x hx => h x (List.mem_cons_of_mem c hx))
      simp [h c (List.mem_cons_self c _), htail]

/-- Prepending characters that never case-fold to `<` preserves
`imgFree`. -/
theorem imgFree_append (xs ys : List Char) (hxs : ∀ c ∈ xs, ciEq '<' c = false)
    (hys : imgFree ys = true) : imgFree (xs ++ ys) = true := by
  induction xs with
  | nil => simpa using hys
  | cons c rest ih =>
    have htail : imgFree (rest ++ ys) = true :=
      ih (fun x hx => hxs x (List.mem_cons_of_mem c hx))
    rw [List.cons_append]
    cases hre : rest ++ ys with
    | nil => rfl
    | cons d tl =>
      rw [hre] at htail
      rw [imgFree]
      simp [hxs c (List.mem_cons_self c _), htail]

/-- One step of the tag stripper over a non-`<` character. -/
theorem stripTagsF_cons_ne (n : ℕ) (c : Char) (cs : List Char) (hc : c ≠ '<') :
    stripTagsF (n + 1) (c :: cs) = c :: stripTagsF n cs := by
  conv_lhs => rw [stripTagsF.eq_def]
  dsimp only
  rw [if_neg hc]

/-- `stripTagsF` is the identity on text without a literal `<`. -/
theorem stripTagsF_id (fuel : ℕ) (l : List Char) (h : ∀ c ∈ l, c ≠ '<') :
    stripTagsF fuel l = l := by
  induction fuel generalizing l with
  | zero => rfl
  | succ n ih =>
    cases l with
    | nil => rfl
    | cons c cs =>
      rw [stripTagsF_cons_ne n c cs (h c (List.mem_cons_self c cs)),
        ih cs (fun x hx => h x (List.mem_cons_of_mem c hx))]

/-- The characters of the exporter's answer separator `<hr id=answer>`. -/
def hrList : List Char :=
  ['<', 'h', 'r', ' ', 'i', 'd', '=', 'a', 'n', 's', 'w', 'e', 'r', '>']

/-- Stripping tags from `front \n\n <hr id=answer> \n\n back` (tag-free
`front`/`back`) keeps the texts and turns the separator into four
newlines. -/
theorem stripTagsF_hr (f b : List Char) (hf : ∀ c ∈ f, c ≠ '<')
    (hb : ∀ c ∈ b, c ≠ '<') (fuel : ℕ) (hfuel : f.length + 3 ≤ fuel) :
    stripTagsF fuel (f ++ ('\n' :: '\n' :: hrList ++ '\n' :: '\n' :: b))
      = f ++ ('\n' :: '\n' :: '\n' :: '\n' :: b) := by
  induction f generalizing fuel with
  | nil =>
    obtain ⟨m, rfl⟩ : ∃ m, fuel = m + 3 := ⟨fuel - 3, by omega⟩
    simp only [List.nil_append, List.cons_append]
    rw [show m + 3 = (m + 2) + 1 from rfl,
      stripTagsF_cons_ne (m + 2) '\n' _ (by decide),
      show m + 2 = (m + 1) + 1 from rfl,
      stripTagsF_cons_ne (m + 1) '\n' _ (by decide)]
    have hstep : stripTagsF (m + 1) (hrList ++ '\n' :: '\n' :: b)
        = stripTagsF m ('\n' :: '\n' :: b) := by
      rw [hrList]
      conv_lhs => rw [stripTagsF.eq_def]
      dsimp only [List.cons_append]
      rw [if_pos rfl, if_pos (by decide)]
      simp [List.dropWhile_cons]
    rw [hstep, stripTagsF_id m _ (by
      intro x hx
      simp only [List.mem_cons] at hx
      rcases hx with rfl | rfl | hx
      · decide
      · decide
      · exact hb x hx)]
  | cons c f' ih =>
    cases fuel with
    | zero => omega
    | succ n =>
      rw [List.cons_append,
        stripTagsF_cons_ne n c _ (hf c (List.mem_cons_self c f')),
        ih (fun x hx => hf x (List.mem_cons_of_mem c hx)) n (by
          simp only [List.length_cons] at hfuel
          omega), List.cons_append]

/-- The tail of a list without double spaces has no double spaces. -/
theorem noDoubleSpace_tail (c : Char) (cs : List Char)
    (h : noDoubleSpace (c :: cs) = true) : noDoubleSpace cs = true := by
  cases cs with
  | nil => rfl
  | cons d rest =>
    have h' := h
    simp only [noDoubleSpace, Bool.and_eq_true] at h'
    exact h'.2

/-- In a list without double spaces, a space is not followed by a
space. -/
theorem noDoubleSpace_head (c d : Char) (rest : List Char)
    (h : noDoubleSpace (c :: d :: rest) = true) (hc : c = ' ') : d ≠ ' ' := by
  have h' := h
  simp only [noDoubleSpace, Bool.and_eq_true, Bool.not_eq_true',
    Bool.and_eq_false_iff, decide_eq_false_iff_not] at h'
  rcases h'.1 with h1 | h1
  · exact absurd hc h1
  · exact h1

/-- Whitespace-collapse step over a non-whitespace character. -/
theorem collapseWs_cons_nws (c : Char) (cs : List Char)
    (hc : c.isWhitespace = false) :
    collapseWs (c :: cs) = c :: collapseWs cs := by
  conv_lhs => rw [collapseWs.eq_def]
  dsimp only
  rw [if_neg (by simp [hc])]

/-- Whitespace-collapse of a trailing whitespace character. -/
theorem collapseWs_ws_nil (c : Char) (hc : c.isWhitespace = true) :
    collapseWs [c] = [' '] := by
  conv_lhs => rw [collapseWs.eq_def]
  dsimp only
  rw [if_pos hc]

/-- Whitespace-collapse step over two whitespace characters. -/
theorem collapseWs_ws_ws (c d : Char) (rest : List Char)
    (hc : c.isWhitespace = true) (hd : d.isWhitespace = true) :
    collapseWs (c :: d :: rest) = collapseWs (d :: rest) := by
  conv_lhs => rw [collapseWs.eq_def]
  dsimp only
  rw [if_pos hc, if_pos hd]

/-- Whitespace-collapse step at the end of a whitespace run. -/
theorem collapseWs_ws_nws (c d : Char) (rest : List Char)
    (hc : c.isWhitespace = true) (hd : d.isWhitespace = false) :
    collapseWs (c :: d :: rest) = ' ' :: collapseWs (d :: rest) := by
  conv_lhs => rw [collapseWs.eq_def]
  dsimp only
  rw [if_pos hc, if_neg (by simp [hd])]

/-- `collapseWs` is the identity when whitespace appears only as single
spaces. -/
theorem collapseWs_id (l : List Char)
    (hws : ∀ c ∈ l, c.isWhitespace → c = ' ')
    (hnd : noDoubleSpace l = true) : collapseWs l = l := by
  induction l with
  | nil => rfl
  | cons c cs ih =>
    have htail : collapseWs cs = cs :=
      ih (fun x hx hw => hws x (List.mem_cons_of_mem c hx) hw)
        (noDoubleSpace_tail c cs hnd)
    cases hcw : c.isWhitespace with
    | false =>
      rw [collapseWs_cons_nws c cs hcw, htail]
    | true =>
      have hc : c = ' ' := hws c (List.mem_cons_self c cs) hcw
      cases cs with
      | nil =>
        rw [collapseWs_ws_nil c hcw, hc]
      | cons d rest =>
        have hd : d.isWhitespace = false := by
          cases hdw : d.isWhitespace with
          | false => rfl
          | true =>
            have hd' : d = ' ' :=
              hws d (List.mem_cons_of_mem c (List.mem_cons_self d rest)) hdw
            exact absurd hd' (noDoubleSpace_head c d rest hnd hc)
        rw [collapseWs_ws_nws c d rest hcw hd, htail, hc]

/-- `collapseWs` distributes over an append whose left part is clean and
does not end in a space. -/
theorem collapseWs_append (f l : List Char)
    (hws : ∀ c ∈ f, c.isWhitespace → c = ' ')
    (hnd : noDoubleSpace f = true)
    (hlast : lastNotSpace f = true) :
    collapseWs (f ++ l) = f ++ collapseWs l := by
  induction f with
  | nil => rfl
  | cons c cs ih =>
    cases cs with
    | nil =>
      have hc : c.isWhitespace = false := by
        cases hcw : c.isWhitespace with
        | false => rfl
        | true =>
          have hc' : c = ' ' := hws c (List.mem_cons_self c []) hcw
          subst hc'
          simp [lastNotSpace] at hlast
      simp only [List.cons_append, List.nil_append]
      rw [collapseWs_cons_nws c l hc]
    | cons d rest =>
      have htail : collapseWs ((d :: rest) ++ l) = (d :: rest) ++ collapseWs l :=
        ih (fun x hx hw => hws x (List.mem_cons_of_mem c hx) hw)
          (noDoubleSpace_tail c (d :: rest) hnd)
          hlast
      simp only [List.cons_append] at htail ⊢
      cases hcw : c.isWhitespace with
      | false =>
        rw [collapseWs_cons_nws c _ hcw, htail]
      | true =>
        have hc : c = ' ' := hws c (List.mem_cons_self c _) hcw
        have hd : d.isWhitespace = false := by
          cases hdw : d.isWhitespace with
          | false => rfl
          | true =>
            have hd' : d = ' ' :=
              hws d (List.mem_cons_of_mem c (List.mem_cons_self d rest)) hdw
            exact absurd hd' (noDoubleSpace_head c d rest hnd hc)
        rw [collapseWs_ws_nws c d (rest ++ l) hcw hd, htail, hc]

/-- `lastNotSpace` of a snoc list reads the appended character. -/
theorem lastNotSpace_concat (l : List Char) (c : Char) :
    lastNotSpace (l ++ [c]) = !(c = ' ') := by
  induction l with
  | nil => rfl
  | cons a t ih =>
    cases t with
    | nil => rfl
    | cons x t' =>
      rw [List.cons_append]
      show lastNotSpace (x :: t' ++ [c]) = _
      exact ih

/-- `lastNotSpace` only looks at the non-empty right part of an
append. -/
theorem lastNotSpace_append (xs ys : List Char) (hys : ys ≠ []) :
    lastNotSpace (xs ++ ys) = lastNotSpace ys := by
  induction xs with
  | nil => rfl
  | cons c rest ih =>
    cases hre : rest ++ ys with
    | nil =>
      rcases List.append_eq_nil.mp hre with ⟨-, h2⟩
      exact absurd h2 hys
    | cons d tl =>
      rw [List.cons_append, hre]
      show lastNotSpace (d :: tl) = lastNotSpace ys
      rw [← hre, ih]

/-- A list not ending in a space reversed does not start with one. -/
theorem headNotSpace_reverse (l : List Char) (hlast : lastNotSpace l = true) :
    headNotSpace l.reverse = true := by
  induction l using List.reverseRecOn with
  | nil => rfl
  | append_singleton ys y _ =>
    rw [lastNotSpace_concat ys y] at hlast
    rw [List.reverse_append]
    simpa [headNotSpace] using hlast

/-- Dropping leading whitespace is the identity on clean text that does
not start with a space. -/
theorem dropWhile_ws_id (l : List Char)
    (hws : ∀ c ∈ l, c.isWhitespace → c = ' ')
    (hhead : headNotSpace l = true) :
    l.dropWhile Char.isWhitespace = l := by
  cases l with
  | nil => rfl
  | cons c cs =>
    have hc : c.isWhitespace = false := by
      cases hcw : c.isWhitespace with
      | false => rfl
      | true =>
        have hc' : c = ' ' := hws c (List.mem_cons_self c cs) hcw
        subst hc'
        simp [headNotSpace] at hhead
    rw [List.dropWhile_cons]
    simp [hc]

/-- JS `trim` is the identity on clean text with no leading or trailing
space. -/
theorem jsTrim_id (l : List Char)
    (hws : ∀ c ∈ l, c.isWhitespace → c = ' ')
    (hhead : headNotSpace l = true) (hlast : lastNotSpace l = true) :
    jsTrim l = l := by
  unfold jsTrim
  rw [dropWhile_ws_id l hws hhead]
  rw [dropWhile_ws_id l.reverse
    (fun c hc hw => hws c (List.mem_reverse.mp hc) hw)
    (headNotSpace_reverse l hlast), List.reverse_reverse]

/-- Unpack `plainText` into its per-character facts. -/
theorem plainText_spec (s : String) (h : plainText s = true) :
    (∀ c ∈ s.data, ciEq '<' c = false) ∧ (∀ c ∈ s.data, c ≠ '[') ∧
    (∀ c ∈ s.data, c ≠ '\x1f') ∧ (∀ c ∈ s.data, c.isWhitespace → c = ' ') ∧
    noDoubleSpace s.data = true ∧ headNotSpace s.data = true ∧
    lastNotSpace s.data = true := by
  simp only [plainText, Bool.and_eq_true, List.all_eq_true, Bool.or_eq_true,
    Bool.not_eq_true', decide_eq_true_eq, decide_eq_false_iff_not] at h
  obtain ⟨⟨⟨hall, hnd⟩, hhead⟩, hlast⟩ := h
  refine ⟨fun c hc => ?_, fun c hc => ?_, fun c hc => ?_, fun c hc => ?_,
    hnd, hhead, hlast⟩
  · exact (hall c hc).1.1.1
  · exact (hall c hc).1.1.2
  · exact (hall c hc).1.2
  · intro hw
    rcases (hall c hc).2 with h1 | h1
    · exact absurd hw (by simp [h1])
    · exact h1

/-- A character that does not case-fold to `<` is not `<`. -/
theorem plain_ne_lt (c : Char) (h : ciEq '<' c = false) : c ≠ '<' := by
  intro he
  subst he
  exact absurd h (by decide)

/-- Collapsing four newlines before clean text yields a single space. -/
theorem collapseWs_nl4 (c : Char) (bs : List Char)
    (hc : c.isWhitespace = false) :
    collapseWs ('\n' :: '\n' :: '\n' :: '\n' :: c :: bs)
      = ' ' :: collapseWs (c :: bs) := by
  rw [collapseWs_ws_ws '\n' '\n' _ (by decide) (by decide),
    collapseWs_ws_ws '\n' '\n' _ (by decide) (by decide),
    collapseWs_ws_ws '\n' '\n' _ (by decide) (by decide),
    collapseWs_ws_nws '\n' c bs (by decide) hc]

/-- The HTML normalizer is the identity on plain study text. -/
theorem processHtml_plain (s : String) (h : plainText s = true) :
    processHtml s = ⟨s, [], []⟩ := by
  obtain ⟨hlt, hlb, _, hws, hnd, hhead, hlast⟩ := plainText_spec s h
  have hlt' : ∀ c ∈ s.data, c ≠ '<' := fun c hc => plain_ne_lt c (hlt c hc)
  have himg : imgFree s.data = true := imgFree_of_no_lt s.data hlt
  simp only [processHtml]
  rw [extractSoundsF_nil _ _ hlb, extractImgsF_nil _ _ himg,
    removeSoundsF_id _ _ hlb, removeImgsF_id _ _ himg,
    stripTagsF_id _ _ hlt', collapseWs_id _ hws hnd,
    jsTrim_id _ hws hhead hlast]
  rfl

/-- Chain-membership splitter for `front ++ separator ++ back` texts. -/
theorem forall_mem_chain {P : Char → Prop} (fd bd : List Char)
    (hf : ∀ c ∈ fd, P c)
    (hmid : ∀ c ∈ ('\n' :: '\n' :: hrList ++ '\n' :: '\n' :: ([] : List Char)), P c)
    (hb : ∀ c ∈ bd, P c) :
    ∀ c ∈ fd ++ ('\n' :: '\n' :: hrList ++ '\n' :: '\n' :: bd), P c := by
  intro c hc
  rcases List.mem_append.mp hc with hc | hc
  · exact hf c hc
  · rcases List.mem_cons.mp hc with rfl | hc
    · exact hmid _ (by decide)
    rcases List.mem_cons.mp hc with rfl | hc
    · exact hmid _ (by decide)
    rcases List.mem_append.mp hc with hc | hc
    · exact hmid c (List.mem_cons_of_mem _ (List.mem_cons_of_mem _
        (List.mem_append_left _ hc)))
    rcases List.mem_cons.mp hc with rfl | hc
    · exact hmid _ (by decide)
    rcases List.mem_cons.mp hc with rfl | hc
    · exact hmid _ (by decide)
    · exact hb c hc

/-- A character that cannot open a tag preserves `imgFree`. -/
theorem imgFree_cons_safe (c : Char) (l : List Char) (hc : ciEq '<' c = false)
    (hl : imgFree l = true) : imgFree (c :: l) = true := by
  cases l with
  | nil => rfl
  | cons d tl =>
    rw [imgFree]
    simp [hc, hl]

/-- `<` before `h` cannot open an `<img` tag. -/
theorem imgFree_cons_lt_h (t : List Char) (h : imgFree ('h' :: t) = true) :
    imgFree ('<' :: 'h' :: t) = true := by
  rw [imgFree]
  simp [h, (show ciEq 'i' 'h' = false by decide)]

/-- The HTML normalizer on `front ++ "\n\n<hr id=answer>\n\n" ++ back`
with plain non-empty texts: the separator collapses to a single space. -/
theorem processHtml_joined (f b : String) (hf : plainText f = true)
    (hb : plainText b = true) (hfne : f ≠ "") (hbne : b ≠ "") :
    processHtml (f ++ "\n\n<hr id=answer>\n\n" ++ b)
      = ⟨f ++ " " ++ b, [], []⟩ := by
  obtain ⟨hflt, hflb, _, hfws, hfnd, hfh, hfl⟩ := plainText_spec f hf
  obtain ⟨hblt, hblb, _, hbws, hbnd, hbh, hbl⟩ := plainText_spec b hb
  have hdata : (f ++ "\n\n<hr id=answer>\n\n" ++ b).data
      = f.data ++ ('\n' :: '\n' :: hrList ++ '\n' :: '\n' :: b.data) := by
    have hsep : ("\n\n<hr id=answer>\n\n" : String).data
        = '\n' :: '\n' :: hrList ++ '\n' :: '\n' :: ([] : List Char) := by decide
    rw [String.data_append, String.data_append, hsep]
    simp [hrList]
  have hLlb : ∀ c ∈ f.data ++ ('\n' :: '\n' :: hrList ++ '\n' :: '\n' :: b.data),
      c ≠ '[' := forall_mem_chain f.data b.data hflb (by decide) hblb
  have himb : imgFree b.data = true := imgFree_of_no_lt b.data hblt
  have h2 : imgFree ('\n' :: '\n' :: hrList ++ '\n' :: '\n' :: b.data) = true := by
    simp only [hrList, List.cons_append, List.nil_append]
    repeat
      first
      | exact himb
      | apply imgFree_cons_lt_h
      | apply imgFree_cons_safe _ _ (by decide)
  have himgL : imgFree (f.data ++ ('\n' :: '\n' :: hrList ++ '\n' :: '\n' :: b.data))
      = true := imgFree_append f.data _ hflt h2
  have hflt' : ∀ c ∈ f.data, c ≠ '<' := fun c hc => plain_ne_lt c (hflt c hc)
  have hblt' : ∀ c ∈ b.data, c ≠ '<' := fun c hc => plain_ne_lt c (hblt c hc)
  obtain ⟨bc, btl, hbd⟩ : ∃ c t, b.data = c :: t := by
    cases hbd : b.data with
    | nil => exact absurd (String.ext (hbd.trans rfl) : b = "") hbne
    | cons c t => exact ⟨c, t, rfl⟩
  have hbc : bc.isWhitespace = false := by
    cases hw : bc.isWhitespace with
    | false => rfl
    | true =>
      have hsp : bc = ' ' := hbws bc (hbd ▸ List.mem_cons_self bc btl) hw
      rw [hbd, hsp] at hbh
      simp [headNotSpace] at hbh
  have hlen : f.data.length + 3
      ≤ (f.data ++ ('\n' :: '\n' :: hrList ++ '\n' :: '\n' :: b.data)).length := by
    simp [hrList]
  have hstrip : stripTagsF
      (f.data ++ ('\n' :: '\n' :: hrList ++ '\n' :: '\n' :: b.data)).length
      (f.data ++ ('\n' :: '\n' :: hrList ++ '\n' :: '\n' :: b.data))
      = f.data ++ ('\n' :: '\n' :: '\n' :: '\n' :: b.data) :=
    stripTagsF_hr f.data b.data hflt' hblt' _ hlen
  have hcoll : collapseWs (f.data ++ ('\n' :: '\n' :: '\n' :: '\n' :: b.data))
      = f.data ++ (' ' :: b.data) := by
    rw [collapseWs_append f.data _ hfws hfnd hfl]
    rw [hbd, collapseWs_nl4 bc btl hbc,
      collapseWs_id (bc :: btl) (hbd ▸ hbws) (hbd ▸ hbnd)]
  have hwsL : ∀ c ∈ f.data ++ (' ' :: b.data), c.isWhitespace → c = ' ' := by
    intro c hc hw
    rcases List.mem_append.mp hc with hc | hc
    · exact hfws c hc hw
    · rcases List.mem_cons.mp hc with rfl | hc
      · rfl
      · exact hbws c hc hw
  have hheadL : headNotSpace (f.data ++ (' ' :: b.data)) = true := by
    obtain ⟨fc, ftl, hfd⟩ : ∃ c t, f.data = c :: t := by
      cases hfd : f.data with
      | nil => exact absurd (String.ext (hfd.trans rfl) : f = "") hfne
      | cons c t => exact ⟨c, t, rfl⟩
    rw [hfd, List.cons_append]
    rw [hfd] at hfh
    exact hfh
  have hlastL : lastNotSpace (f.data ++ (' ' :: b.data)) = true := by
    rw [lastNotSpace_append f.data _ (by simp)]
    rw [hbd]
    show lastNotSpace (bc :: btl) = true
    rw [← hbd]
    exact hbl
  have htrim : jsTrim (f.data ++ (' ' :: b.data)) = f.data ++ (' ' :: b.data) :=
    jsTrim_id _ hwsL hheadL hlastL
  simp only [processHtml]
  rw [hdata, extractSoundsF_nil _ _ hLlb, extractImgsF_nil _ _ himgL,
    removeSoundsF_id _ _ hLlb, removeImgsF_id _ _ himgL, hstrip, hcoll, htrim]
  have hstr : String.mk (f.data ++ (' ' :: b.data)) = f ++ " " ++ b := by
    apply String.ext
    show f.data ++ (' ' :: b.data) = (f ++ " " ++ b).data
    rw [String.data_append, String.data_append]
    simp
  rw [hstr]
  rfl

/-- Rendering the Basic question template substitutes the `Front`
field. -/
theorem renderTemplate_front (fm : FieldMap) :
    renderTemplate "\x7b\x7bFront\x7d\x7d" fm = fm "Front" := by
  show String.mk ((fm "Front").data ++ []) = fm "Front"
  simp

/-- Rendering the Basic answer template produces
`FrontSide ++ "\n\n<hr id=answer>\n\n" ++ Back`. -/
theorem renderTemplate_back (fm : FieldMap) :
    renderTemplate "\x7b\x7bFrontSide\x7d\x7d\n\n<hr id=answer>\n\n\x7b\x7bBack\x7d\x7d" fm
      = fm "FrontSide" ++ "\n\n<hr id=answer>\n\n" ++ fm "Back" := by
  show String.mk ((fm "FrontSide").data
      ++ ('\n' :: '\n' :: hrList ++ '\n' :: '\n' :: ((fm "Back").data ++ [])))
    = fm "FrontSide" ++ "\n\n<hr id=answer>\n\n" ++ fm "Back"
  apply String.ext
  show (fm "FrontSide").data
      ++ ('\n' :: '\n' :: hrList ++ '\n' :: '\n' :: ((fm "Back").data ++ []))
    = (fm "FrontSide" ++ "\n\n<hr id=answer>\n\n" ++ fm "Back").data
  rw [String.data_append, String.data_append]
  have hsep : ("\n\n<hr id=answer>\n\n" : String).data
      = '\n' :: '\n' :: hrList ++ '\n' :: '\n' :: ([] : List Char) := by decide
  rw [hsep]
  simp [hrList]

/-- The Basic model's field map binds `Front`. -/
theorem buildFieldMap_basic_front (f b : String) :
    buildFieldMap basicModel.flds [f, b] "Front" = f := rfl

/-- The Basic model's field map binds `Back`. -/
theorem buildFieldMap_basic_back (f b : String) :
    buildFieldMap basicModel.flds [f, b] "Back" = b := rfl

/-- A non-empty plain string is truthy after trimming. -/
theorem trimTruthy_plain (s : String) (hp : plainText s = true) (hne : s ≠ "") :
    trimTruthy s = true := by
  obtain ⟨-, -, -, hws, -, hh, hl⟩ := plainText_spec s hp
  unfold trimTruthy
  rw [jsTrim_id s.data hws hh hl]
  cases hd : s.data with
  | nil => exact absurd (String.ext (hd.trans rfl) : s = "") hne
  | cons c t => rfl

/-- A non-empty string is not `isEmpty`. -/
theorem isEmpty_false_of_ne (s : String) (hne : s ≠ "") :
    s.isEmpty = false := by
  cases hie : s.isEmpty with
  | false => rfl
  | true => exact absurd ((String.isEmpty_iff s).mp hie) hne

/-- Rendering the Basic template pair over plain non-empty `Front`/`Back`
values. -/
theorem renderCandidate_basic (f b : String) (hf : plainText f = true)
    (hb : plainText b = true) (hfne : f ≠ "") (hbne : b ≠ "") :
    renderCandidate (buildFieldMap basicModel.flds [f, b])
        { qfmt := "\x7b\x7bFront\x7d\x7d"
          afmt := "\x7b\x7bFrontSide\x7d\x7d\n\n<hr id=answer>\n\n\x7b\x7bBack\x7d\x7d" }
      = (⟨f, [], []⟩, ⟨f ++ " " ++ b, [], []⟩) := by
  unfold renderCandidate
  dsimp only
  rw [renderTemplate_front, buildFieldMap_basic_front, renderTemplate_back]
  have hfs : withFrontSide (buildFieldMap basicModel.flds [f, b]) f "FrontSide"
      = f := rfl
  have hbk : withFrontSide (buildFieldMap basicModel.flds [f, b]) f "Back"
      = b := rfl
  rw [hfs, hbk, processHtml_plain f hf, processHtml_joined f b hf hb hfne hbne]

/-- One Basic template step of the note loop keeps the card with the
joined back text. -/
theorem processTemplate_basic (nid f b : String) (i : ℕ)
    (hf : plainText f = true) (hb : plainText b = true)
    (hfne : f ≠ "") (hbne : b ≠ "") :
    processTemplate nid (buildFieldMap basicModel.flds [f, b]) i
        { qfmt := "\x7b\x7bFront\x7d\x7d"
          afmt := "\x7b\x7bFrontSide\x7d\x7d\n\n<hr id=answer>\n\n\x7b\x7bBack\x7d\x7d" }
      = some
        { externalId := nid ++ "_" ++ toString i
          front := f
          back := f ++ " " ++ b
          frontAudio := none
          backAudio := none
          frontImage := none
          backImage := none } := by
  unfold processTemplate
  rw [renderCandidate_basic f b hf hb hfne hbne]
  dsimp only
  have hskip : skipEmptyCard ⟨f, [], []⟩ ⟨f ++ " " ++ b, [], []⟩ = false := by
    simp [skipEmptyCard, trimTruthy_plain f hf hfne]
  rw [hskip]
  simp only [Bool.false_eq_true, if_false]
  rw [isEmpty_false_of_ne f hfne]
  have hfb : (f ++ " " ++ b).isEmpty = false := by
    apply isEmpty_false_of_ne
    intro h0
    have : (f ++ " " ++ b).data = [] := h0 ▸ rfl
    rw [String.data_append, String.data_append] at this
    simp at this
  rw [hfb]
  rfl

/-- `processNoteWithModel` over the Basic model and plain non-empty
fields keeps exactly one card whose back is `front ++ " " ++ back`. -/
theorem processNoteWithModel_basic (nid f b : String)
    (hf : plainText f = true) (hb : plainText b = true)
    (hfne : f ≠ "") (hbne : b ≠ "") :
    processNoteWithModel nid [f, b] basicModel CardDirection.all
      = [{ externalId := nid ++ "_0"
           front := f
           back := f ++ " " ++ b
           frontAudio := none
           backAudio := none
           frontImage := none
           backImage := none }] := by
  have hid : nid ++ "_" ++ toString (0 : ℕ) = nid ++ "_0" := by
    apply String.ext
    rw [String.data_append, String.data_append]
    have h0 : (toString (0 : ℕ)).data = ['0'] := by decide
    rw [h0]
    simp
  have hstep := processTemplate_basic nid f b 0 hf hb hfne hbne
  rw [hid] at hstep
  show List.filterMap
      (fun p => processTemplate nid (buildFieldMap basicModel.flds [f, b]) p.1 p.2)
      [(0, { qfmt := "\x7b\x7bFront\x7d\x7d"
             afmt := "\x7b\x7bFrontSide\x7d\x7d\n\n<hr id=answer>\n\n\x7b\x7bBack\x7d\x7d" })]
    = _
  rw [List.filterMap_cons]
  dsimp only
  rw [hstep]
  rfl

/-- Splitting on the unit separator is trivial without separators. -/
theorem splitOnUS_no_sep (l : List Char) (h : ∀ c ∈ l, c ≠ '\x1f') :
    splitOnUS l = [l] := by
  induction l with
  | nil => rfl
  | cons c cs ih =>
    rw [splitOnUS, if_neg (h c (List.mem_cons_self c cs)),
      ih (fun x hx => h x (List.mem_cons_of_mem c hx))]

/-- Splitting `front ++ \x1f ++ back` on the unit separator. -/
theorem splitOnUS_pair (fd bd : List Char) (hf : ∀ c ∈ fd, c ≠ '\x1f')
    (hb : ∀ c ∈ bd, c ≠ '\x1f') :
    splitOnUS (fd ++ '\x1f' :: bd) = [fd, bd] := by
  induction fd with
  | nil =>
    rw [List.nil_append, splitOnUS, if_pos rfl,
      splitOnUS_no_sep bd hb]
  | cons c fs ih =>
    rw [List.cons_append, splitOnUS,
      if_neg (hf c (List.mem_cons_self c fs)),
      ih (fun x hx => hf x (List.mem_cons_of_mem c hx))]

/-- `splitFields` recovers the two field values of a Basic note. -/
theorem splitFields_pair (f b : String)
    (hf : ∀ c ∈ f.data, c ≠ '\x1f') (hb : ∀ c ∈ b.data, c ≠ '\x1f') :
    splitFields (f ++ "\x1f" ++ b) = [f, b] := by
  unfold splitFields
  have hdata : (f ++ "\x1f" ++ b).data = f.data ++ '\x1f' :: b.data := by
    rw [String.data_append, String.data_append]
    have h1 : ("\x1f" : String).data = ['\x1f'] := rfl
    rw [h1]
    simp
  rw [hdata, splitOnUS_pair f.data b.data hf hb]
  rfl

/-- String append cancels on the right. -/
theorem string_append_right_cancel (a b s : String) (h : a ++ s = b ++ s) :
    a = b := by
  apply String.ext
  have hd := congrArg String.data h
  rw [String.data_append, String.data_append] at hd
  exact List.append_cancel_right hd

/-- Minted card ids of distinct counter values differ. -/
theorem card_id_ne (j n : ℕ) (hj : j ≠ n) :
    ("card_" ++ ulidStr j) ≠ ("card_" ++ ulidStr n) := by
  intro he
  apply hj
  have hd := congrArg String.data he
  rw [String.data_append, String.data_append] at hd
  simp only [ulidStr] at hd
  have hr := List.append_cancel_left hd
  have hl := congrArg List.length hr
  simpa using hl

/-- The middle separator makes a joined `flds` string non-empty. -/
theorem flds_isEmpty_false (f b : String) :
    (f ++ "\x1f" ++ b).isEmpty = false := by
  apply isEmpty_false_of_ne
  intro h0
  have hd : (f ++ "\x1f" ++ b).data = [] := h0 ▸ rfl
  rw [String.data_append, String.data_append] at hd
  have h1 : ("\x1f" : String).data = ['\x1f'] := rfl
  rw [h1] at hd
  simp at hd

/-- `persistCardSpec` on a world without a mapping for the card and with
only counter-minted card ids: one card and one mapping row are appended,
two identifiers are consumed. -/
theorem persistCardSpec_fresh (deckId batchId : String) (spec : CardSpec)
    (w : World)
    (hfind : w.importMappings.find?
        (matchesTriple "anki" spec.externalId EntityType.card) = none)
    (hinv : ∀ x ∈ w.cards, ∃ j, j < w.nextUlid ∧ x.id = "card_" ++ ulidStr j) :
    persistCardSpec deckId batchId spec w =
      ({ w with
          cards := w.cards ++
            [{ id := "card_" ++ ulidStr w.nextUlid
               front := spec.front
               back := spec.back
               deckId := deckId
               interval := 0
               easeFactor := 5/2
               repetitions := 0
               lapses := 0
               totalReviews := 0
               status := CardStatus.fresh
               queue := 0
               frontAudio := spec.frontAudio
               backAudio := spec.backAudio
               frontImage := spec.frontImage
               backImage := spec.backImage
               importSource := some "anki"
               externalId := some spec.externalId }]
          importMappings := w.importMappings ++
            [{ sourceSystem := "anki"
               sourceId := spec.externalId
               internalId := "card_" ++ ulidStr w.nextUlid
               entityType := EntityType.card
               importBatchId := some batchId }]
          nextUlid := w.nextUlid + 2 }, Except.ok ()) := by
  have hany : (w.cards.any
      (fun r => r.id == "card_" ++ ulidStr w.nextUlid)) = false := by
    rw [List.any_eq_false]
    intro x hx
    obtain ⟨j, hj, hid⟩ := hinv x hx
    rw [hid]
    simp only [beq_iff_eq]
    exact card_id_ne j w.nextUlid (Nat.ne_of_lt hj)
  unfold persistCardSpec getOrCreateMapping
  rw [hfind]
  dsimp only [generateId, mintUlid, entityPrefix, srsCreateCard]
  unfold addByKey
  rw [show ("card" ++ "_" : String) = "card_" from rfl, hany]
  simp only [Bool.false_eq_true, if_false]

/-- The note loop over Basic-model notes generated from stored cards:
each note yields exactly one card; the loop succeeds, appends one card
per note (front preserved, back joined with the front), and keeps every
card id counter-minted. -/
theorem importNotesLoop_basic (deckId batchId mid : String)
    (nid : StoredCard → String) (cs : List StoredCard)
    (hplain : ∀ c ∈ cs, plainText c.front = true ∧ plainText c.back = true ∧
       c.front ≠ "" ∧ c.back ≠ "")
    (hinj : List.Pairwise (fun a b => nid a ≠ nid b) cs)
    (w : World) (count : ℕ)
    (hfresh : ∀ c ∈ cs, w.importMappings.find?
        (matchesTriple "anki" (nid c ++ "_0") EntityType.card) = none)
    (hinv : ∀ x ∈ w.cards, ∃ j, j < w.nextUlid ∧ x.id = "card_" ++ ulidStr j) :
    ∃ w', importNotesLoop deckId batchId [(mid, basicModel)] CardDirection.all
        (cs.map (fun c => { id := nid c, mid := mid
                            flds := c.front ++ "\x1f" ++ c.back })) w count
      = (w', Except.ok (count + cs.length)) ∧
      w'.cards.map (fun x => (x.front, x.back))
        = w.cards.map (fun x => (x.front, x.back)) ++
          cs.map (fun c => (c.front, c.front ++ " " ++ c.back)) ∧
      (∀ x ∈ w'.cards, ∃ j, j < w'.nextUlid ∧ x.id = "card_" ++ ulidStr j) := by
  induction cs generalizing w count with
  | nil => exact ⟨w, rfl, by simp, hinv⟩
  | cons c rest ih =>
    obtain ⟨hpf, hpb, hfne, hbne⟩ := hplain c (List.mem_cons_self c rest)
    obtain ⟨-, -, hfUS, -, -, -, -⟩ := plainText_spec c.front hpf
    obtain ⟨-, -, hbUS, -, -, -, -⟩ := plainText_spec c.back hpb
    obtain ⟨hhead, htailinj⟩ := List.pairwise_cons.mp hinj
    rw [List.map_cons, importNotesLoop]
    dsimp only
    rw [flds_isEmpty_false c.front c.back]
    simp only [Bool.false_eq_true, if_false]
    rw [List.find?_cons_of_pos _ (by simp)]
    dsimp only
    rw [splitFields_pair c.front c.back hfUS hbUS,
      processNoteWithModel_basic (nid c) c.front c.back hpf hpb hfne hbne]
    rw [persistSpecs]
    have hstep := persistCardSpec_fresh deckId batchId
      { externalId := nid c ++ "_0"
        front := c.front
        back := c.front ++ " " ++ c.back
        frontAudio := none
        backAudio := none
        frontImage := none
        backImage := none } w
      (hfresh c (List.mem_cons_self c rest)) hinv
    rw [hstep]
    dsimp only
    rw [persistSpecs]
    dsimp only
    have hinv1 : ∀ x ∈ (w.cards ++
        [({ id := "card_" ++ ulidStr w.nextUlid, front := c.front,
            back := c.front ++ " " ++ c.back, deckId := deckId,
            interval := 0, easeFactor := 5/2, repetitions := 0, lapses := 0,
            totalReviews := 0, status := CardStatus.fresh, queue := 0,
            frontAudio := none, backAudio := none, frontImage := none,
            backImage := none, importSource := some "anki",
            externalId := some (nid c ++ "_0") } : StoredCard)]),
        ∃ j, j < w.nextUlid + 2 ∧ x.id = "card_" ++ ulidStr j := by
      intro x hx
      rcases List.mem_append.mp hx with hx | hx
      · obtain ⟨j, hj, hid⟩ := hinv x hx
        exact ⟨j, by omega, hid⟩
      · rcases List.mem_singleton.mp hx with rfl
        exact ⟨w.nextUlid, by omega, rfl⟩
    have hfresh1 : ∀ c' ∈ rest, (w.importMappings ++
        [({ sourceSystem := "anki", sourceId := nid c ++ "_0",
            internalId := "card_" ++ ulidStr w.nextUlid,
            entityType := EntityType.card,
            importBatchId := some batchId } : ImportMapping)]).find?
        (matchesTriple "anki" (nid c' ++ "_0") EntityType.card) = none := by
      intro c' hc'
      rw [List.find?_eq_none]
      intro m hm
      rcases List.mem_append.mp hm with hm | hm
      · exact List.find?_eq_none.mp (hfresh c' (List.mem_cons_of_mem c hc')) m hm
      · rcases List.mem_singleton.mp hm with rfl
        have hne' : (nid c ++ "_0") ≠ (nid c' ++ "_0") :=
          fun he => hhead c' hc' (string_append_right_cancel _ _ _ he)
        simp [matchesTriple, hne']
    obtain ⟨w', hloop, hcards, hinv'⟩ := ih
      (fun x hx => hplain x (List.mem_cons_of_mem c hx)) htailinj
      ({ w with
          cards := w.cards ++
            [({ id := "card_" ++ ulidStr w.nextUlid, front := c.front,
                back := c.front ++ " " ++ c.back, deckId := deckId,
                interval := 0, easeFactor := 5/2, repetitions := 0,
                lapses := 0, totalReviews := 0, status := CardStatus.fresh,
                queue := 0, frontAudio := none, backAudio := none,
                frontImage := none, backImage := none,
                importSource := some "anki",
                externalId := some (nid c ++ "_0") } : StoredCard)]
          importMappings := w.importMappings ++
            [({ sourceSystem := "anki", sourceId := nid c ++ "_0",
                internalId := "card_" ++ ulidStr w.nextUlid,
                entityType := EntityType.card,
                importBatchId := some batchId } : ImportMapping)]
          nextUlid := w.nextUlid + 2 })
      (count + (0 + 1)) hfresh1 hinv1
    refine ⟨w', ?_, ?_, hinv'⟩
    · rw [hloop]
      have harith : count + (0 + 1) + rest.length = count + (c :: rest).length := by
        simp [List.length_cons]
        omega
      rw [harith]
    · rw [hcards]
      dsimp only
      rw [List.map_append]
      simp


/-- `takeWhile` keeps an all-true prefix and stops at the first failing
character. -/
theorem takeWhile_all_append (p : Char → Bool) (xs : List Char) (y : Char)
    (ys : List Char) (hxs : ∀ c ∈ xs, p c = true) (hy : p y = false) :
    (xs ++ y :: ys).takeWhile p = xs := by
  induction xs with
  | nil => simp [List.takeWhile_cons, hy]
  | cons c rest ih =>
    rw [List.cons_append, List.takeWhile_cons, hxs c (List.mem_cons_self c rest)]
    simp only [if_true]
    rw [ih (fun x hx => hxs x (List.mem_cons_of_mem c hx))]

/-- The export id choice on a mapped `"noteId_0"` external id: the note id
is the part before `_`, the card row id is generated. -/
theorem exportCardIdPair_split (bt idx : ℕ) (n : String)
    (hnoU : ∀ ch ∈ n.data, ch ≠ '_') :
    exportCardIdPair bt idx (some (n ++ "_0"))
      = (n, ((bt + idx : ℕ) : ℤ)) := by
  have hdata : (n ++ "_0").data = n.data ++ '_' :: ['0'] := by
    rw [String.data_append]
  have hany : ((n ++ "_0").data.any (fun c => c = '_')) = true := by
    rw [hdata]
    simp
  have htake : (n ++ "_0").data.takeWhile (fun c => c ≠ '_') = n.data := by
    rw [hdata]
    exact takeWhile_all_append _ n.data '_' ['0']
      (fun c hc => by simp [hnoU c hc]) (by simp)
  unfold exportCardIdPair
  dsimp only
  rw [hany]
  rw [if_pos rfl]
  rw [htake]

/-- The notes table emitted by the export loop over cards with distinct
mapped note ids: one note per card, `flds = front ++ \x1f ++ back`. -/
theorem buildExportRows_notes (w : World) (bt : ℕ) (mid adid : String)
    (nid : StoredCard → String) (cs : List StoredCard) (idx : ℕ)
    (seen : List String)
    (hres : ∀ c ∈ cs, resolveCardExternalId w c = some (nid c ++ "_0"))
    (hnoU : ∀ c ∈ cs, ∀ ch ∈ (nid c).data, ch ≠ '_')
    (hseen : ∀ c ∈ cs, seen.contains (nid c) = false)
    (hinj : List.Pairwise (fun a b => nid a ≠ nid b) cs) :
    (buildExportRows w bt mid adid cs idx seen).1
      = cs.map (fun c => ({ id := nid c, mid := mid
                            flds := c.front ++ "\x1f" ++ c.back } : AnkiNote)) := by
  induction cs generalizing idx seen with
  | nil => rfl
  | cons c rest ih =>
    obtain ⟨hhead, htailinj⟩ := List.pairwise_cons.mp hinj
    rw [buildExportRows]
    dsimp only
    rw [hres c (List.mem_cons_self c rest),
      exportCardIdPair_split bt idx (nid c) (hnoU c (List.mem_cons_self c rest))]
    dsimp only
    rw [hseen c (List.mem_cons_self c rest)]
    simp only [Bool.false_eq_true, if_false]
    rw [List.map_cons]
    congr 1
    have hseen' : ∀ c' ∈ rest, (nid c :: seen).contains (nid c') = false := by
      intro c' hc'
      have hne : (nid c' == nid c) = false :=
        beq_eq_false_iff_ne.mpr (Ne.symm (hhead c' hc'))
      simp only [List.contains_cons, Bool.or_eq_false_iff]
      exact ⟨hne, hseen c' (List.mem_cons_of_mem c hc')⟩
    exact ih (idx + 1) (nid c :: seen)
      (fun x hx => hres x (List.mem_cons_of_mem c hx))
      (fun x hx => hnoU x (List.mem_cons_of_mem c hx))
      hseen' htailinj

/-- `exportAnkiDeck` on a deck of mapped cards with distinct note ids:
the archive carries the deck name under its original Anki id, one note
per card with `flds = front ++ \x1f ++ back`, and the Basic model. -/
theorem exportAnkiDeck_basic (W : World) (dk : String) (deck : Deck)
    (cs : List StoredCard) (nid : StoredCard → String) (aid : String)
    (hdeck : dbGetDeck dk W = some deck)
    (hcards : W.cards.filter (fun c => c.deckId == dk) = cs)
    (hne : cs ≠ [])
    (haid : truthy (getExternalId dk "anki" W) = some aid)
    (hres : ∀ c ∈ cs, resolveCardExternalId W c = some (nid c ++ "_0"))
    (hnoU : ∀ c ∈ cs, ∀ ch ∈ (nid c).data, ch ≠ '_')
    (hinj : List.Pairwise (fun a b => nid a ≠ nid b) cs) :
    ∃ wE a, exportAnkiDeck dk W = (wE, Except.ok a) ∧
      a.db = { decksTable := none
               colDecks := some [(aid, deck.name)]
               notes := cs.map (fun c =>
                 ({ id := nid c, mid := Nat.repr W.clock
                    flds := c.front ++ "\x1f" ++ c.back } : AnkiNote))
               models := [(Nat.repr W.clock, basicModel)] } ∧
      a.cardCount = cs.length := by
  unfold exportAnkiDeck
  rw [hdeck]
  dsimp only
  rw [hcards]
  have hcne : cs.isEmpty = false := by
    cases cs
    · exact absurd rfl hne
    · rfl
  rw [hcne]
  simp only [Bool.false_eq_true, if_false]
  rw [haid]
  dsimp only [jsNow]
  refine ⟨_, _, rfl, ?_, rfl⟩
  dsimp only
  congr 1
  exact buildExportRows_notes _ _ _ _ nid cs 0 []
    (fun c hc => hres c hc) hnoU (fun c hc => rfl) hinj

/-- Importing a Basic-model archive (deck id ≠ "1", one note per card,
plain non-empty texts, distinct note ids) into the empty store: it
succeeds, counts one card per note, keeps the deck name, and stores
each note's front with the joined back. -/
theorem importAnkiDeck_basic_archive (nm aid fn mid : String)
    (cs : List StoredCard) (nid : StoredCard → String)
    (haid1 : (aid == "1") = false)
    (hne : cs ≠ [])
    (hplain : ∀ c ∈ cs, plainText c.front = true ∧ plainText c.back = true ∧
       c.front ≠ "" ∧ c.back ≠ "")
    (hinj : List.Pairwise (fun a b => nid a ≠ nid b) cs) :
    ∃ w2 r, importAnkiDeck
        { decksTable := none
          colDecks := some [(aid, nm)]
          notes := cs.map (fun c => ({ id := nid c, mid := mid
                                       flds := c.front ++ "\x1f" ++ c.back } : AnkiNote))
          models := [(mid, basicModel)] } fn CardDirection.all World.empty
      = (w2, Except.ok r) ∧
      r.cardCount = cs.length ∧
      r.deckName = nm ∧
      w2.cards.map (fun x => (x.front, x.back))
        = cs.map (fun c => (c.front, c.front ++ " " ++ c.back)) := by
  obtain ⟨c0, crest, rfl⟩ : ∃ c0 crest, cs = c0 :: crest := by
    cases cs with
    | nil => exact absurd rfl hne
    | cons a t => exact ⟨a, t, rfl⟩
  unfold importAnkiDeck
  have hinfo : extractDeckInfo
      { decksTable := none
        colDecks := some [(aid, nm)]
        notes := (c0 :: crest).map (fun c => ({ id := nid c, mid := mid
                                                flds := c.front ++ "\x1f" ++ c.back } : AnkiNote))
        models := [(mid, basicModel)] } = (nm, some aid) := by
    unfold extractDeckInfo
    dsimp only
    rw [List.find?_cons_of_pos _ (by simp [haid1])]
  rw [hinfo]
  dsimp only
  rw [show (((c0 :: crest).map (fun c => ({ id := nid c, mid := mid, flds := c.front ++ "\x1f" ++ c.back } : AnkiNote)))).isEmpty = false from rfl]
  simp only [Bool.false_eq_true, if_false]
  rw [show getDeckImportBatch "anki" aid World.empty = none from rfl]
  dsimp only [Option.isSome]
  rw [importDeckPhase]
  dsimp only [createImportBatch, mintUlid, World.empty, getOrCreateMapping,
    List.find?_nil, generateId, entityPrefix, addByKey, dbGetDeck,
    List.nil_append, List.any_nil]
  simp only [Bool.false_eq_true, if_false]
  have hfresh : ∀ c ∈ (c0 :: crest),
      ([({ sourceSystem := "anki", sourceId := aid,
           internalId := "deck" ++ "_" ++ ulidStr (0 + 1),
           entityType := EntityType.deck,
           importBatchId := some ("batch_" ++ ulidStr 0) } : ImportMapping)]).find?
        (matchesTriple "anki" (nid c ++ "_0") EntityType.card) = none := by
    intro c hc
    rw [List.find?_cons_of_neg _ (by simp [matchesTriple])]
    exact List.find?_nil
  obtain ⟨w4, hloop, hcards, -⟩ := importNotesLoop_basic
    ("deck" ++ "_" ++ ulidStr (0 + 1)) ("batch_" ++ ulidStr 0) mid nid (c0 :: crest)
    hplain hinj
    ({ cards := [],
       decks :=
         [{ id := "deck" ++ "_" ++ ulidStr (0 + 1), name := nm,
            description :=
              some
                ("Imported from Anki (" ++
                    toString
                      (List.map (fun c => ({ id := nid c, mid := mid, flds := c.front ++ "\x1f" ++ c.back } : AnkiNote))
                          (c0 :: crest)).length ++
                  " notes)"),
            cardCount := 0, dueCount := 0, newCount := 0, importSource := some "anki",
            externalId := some aid }],
       importMappings :=
         [{ sourceSystem := "anki", sourceId := aid, internalId := "deck" ++ "_" ++ ulidStr (0 + 1),
            entityType := EntityType.deck, importBatchId := some ("batch_" ++ ulidStr 0) }],
       importBatches :=
         [{ id := "batch_" ++ ulidStr 0, sourceSystem := "anki", fileName := some fn,
            status := BatchStatus.in_progress, notesImported := 0, cardsImported := 0,
            decksImported := 0 }],
       nextUlid := 0 + 1 + 1, clock := 0 })
    0 hfresh (fun x hx => absurd hx (List.not_mem_nil x))
  rw [hloop]
  dsimp only
  refine ⟨_, _, rfl, ?_, rfl, ?_⟩
  · exact Nat.zero_add _
  · show List.map (fun x => (x.front, x.back)) w4.cards
        = List.map (fun c => (c.front, c.front ++ " " ++ c.back)) (c0 :: crest)
    rw [hcards]
    simp

/-- Claim C1 (amended): exporting a deck of cleanly imported cards and
re-importing the archive into a fresh mapping space succeeds with the
same card count and deck name, and preserves every front text; the
re-imported back text, however, is not the original back text but the
original front and back joined by a single space (the Basic model's
answer template prefixes `FrontSide`, and the importer renders the answer
template into the stored back).  Hypotheses: the deck exists and its
cards are exactly `cs` (non-empty); the deck maps back to an Anki deck id
other than `"1"`; every card resolves to a mapped `"noteId_0"` external
id with `_`-free, pairwise-distinct note ids; all texts are plain
(markup-free, `\x1f`-free, single-spaced) and non-empty. -/
theorem export_reimport_roundtrip (W : World) (dk : String) (deck : Deck)
    (cs : List StoredCard) (nid : StoredCard → String) (aid fn : String)
    (hdeck : dbGetDeck dk W = some deck)
    (hcards : W.cards.filter (fun c => c.deckId == dk) = cs)
    (hne : cs ≠ [])
    (haid : truthy (getExternalId dk "anki" W) = some aid)
    (haid1 : (aid == "1") = false)
    (hres : ∀ c ∈ cs, resolveCardExternalId W c = some (nid c ++ "_0"))
    (hnoU : ∀ c ∈ cs, ∀ ch ∈ (nid c).data, ch ≠ '_')
    (hplain : ∀ c ∈ cs, plainText c.front = true ∧ plainText c.back = true ∧
       c.front ≠ "" ∧ c.back ≠ "")
    (hinj : List.Pairwise (fun a b => nid a ≠ nid b) cs) :
    ∃ wE a w2 r,
      exportAnkiDeck dk W = (wE, Except.ok a) ∧
      importAnkiDeck a.db fn CardDirection.all World.empty = (w2, Except.ok r) ∧
      a.cardCount = cs.length ∧
      r.cardCount = cs.length ∧
      r.deckName = deck.name ∧
      w2.cards.map (fun x => x.front) = cs.map (fun x => x.front) ∧
      w2.cards.map (fun x => x.back) = cs.map (fun c => c.front ++ " " ++ c.back) := by
  obtain ⟨wE, a, hexp, hdb, hcount⟩ := exportAnkiDeck_basic W dk deck cs nid aid
    hdeck hcards hne haid hres hnoU hinj
  obtain ⟨w2, r, himp, hrcount, hrname, hw2cards⟩ := importAnkiDeck_basic_archive
    deck.name aid fn (Nat.repr W.clock) cs nid haid1 hne hplain hinj
  refine ⟨wE, a, w2, r, hexp, ?_, hcount, hrcount, hrname, ?_, ?_⟩
  · rw [hdb]
    exact himp
  · have hmap := congrArg (List.map Prod.fst) hw2cards
    simpa [List.map_map, Function.comp] using hmap
  · have hmap := congrArg (List.map Prod.snd) hw2cards
    simpa [List.map_map, Function.comp] using hmap

/-- A one-card stored card as a first import would leave it: Anki import
source and a mapped `"noteId_templateIndex"` external id. -/
def c1WitnessCard : StoredCard :=
  { id := "card_x", front := "Q", back := "A", deckId := "deck_x"
    interval := 0, easeFactor := 5/2, repetitions := 0, lapses := 0
    totalReviews := 0, status := CardStatus.fresh, queue := 0
    importSource := some "anki", externalId := some "100_0" }

/-- The deck row of the witness world. -/
def c1WitnessDeck : Deck :=
  { id := "deck_x", name := "MyDeck", cardCount := 1, dueCount := 1
    newCount := 1, importSource := some "anki", externalId := some "77" }

/-- A store holding one imported deck with one card and its Anki
mappings. -/
def c1WitnessWorld : World :=
  { cards := [c1WitnessCard]
    decks := [c1WitnessDeck]
    importMappings :=
      [{ sourceSystem := "anki", sourceId := "77", internalId := "deck_x"
         entityType := EntityType.deck, importBatchId := none },
       { sourceSystem := "anki", sourceId := "100_0", internalId := "card_x"
         entityType := EntityType.card, importBatchId := none }]
    importBatches := []
    nextUlid := 0, clock := 0 }

/-- Witness: the amended round-trip theorem applied at the concrete
one-card world; the re-imported back text reads `"Q A"`. -/
theorem export_reimport_roundtrip_witness :
    ∃ wE a w2 r,
      exportAnkiDeck "deck_x" c1WitnessWorld = (wE, Except.ok a) ∧
      importAnkiDeck a.db "f.apkg" CardDirection.all World.empty
        = (w2, Except.ok r) ∧
      a.cardCount = 1 ∧ r.cardCount = 1 ∧ r.deckName = "MyDeck" ∧
      w2.cards.map (fun x => x.front) = ["Q"] ∧
      w2.cards.map (fun x => x.back) = ["Q A"] := by
  have h := export_reimport_roundtrip c1WitnessWorld "deck_x" c1WitnessDeck
    [c1WitnessCard] (fun _ => "100") "77" "f.apkg"
    rfl rfl (List.cons_ne_nil _ _) rfl rfl
    (fun c hc => by rcases List.mem_singleton.mp hc with rfl; rfl)
    (fun c hc => by
      show ∀ ch ∈ ("100" : String).data, ch ≠ '_'
      decide)
    (fun c hc => by
      rcases List.mem_singleton.mp hc with rfl
      exact ⟨by decide, by decide, by decide, by decide⟩)
    (List.pairwise_singleton _ _)
  obtain ⟨wE, a, w2, r, h1, h2, h3, h4, h5, h6, h7⟩ := h
  exact ⟨wE, a, w2, r, h1, h2, h3, h4, h5, h6, h7⟩

end Commonry
